import Mathlib

/-!
Verification development for the wiz_infoticker bot (src/bot.py).

The Python program is shallowly embedded: pure string/list manipulation is
translated function by function; the network layer (requests / BeautifulSoup /
xml parsing), which the specification declares out of scope, is represented by
explicit inputs (the flattened text lines, the hyperlink targets of a page) and
by fetch functions returning Except (a raised exception is Except.error).

Python strings are modelled as Lean String values; where Python compares
strings (sort keys) the comparison is code-point lexicographic, which is
List Char lexicographic order on String.data.  Python regular expressions used
by the program (all on the ASCII subset that the program manipulates) are
modelled by explicit character scans; the Unicode \s class of re.sub is
modelled by the Unicode white-space code points, and \d by the ASCII digits the
scraped pages contain.
-/

/-- Code points matched by Python's regex class \s (str.isspace): ASCII
whitespace, the C1 separators, and the Unicode space code points. -/
def pyIsSpace (c : Char) : Bool :=
  let n := c.toNat
  (9 ≤ n && n ≤ 13) || (28 ≤ n && n ≤ 31) || n == 32 || n == 0x85 || n == 0xA0 ||
    n == 0x1680 || (0x2000 ≤ n && n ≤ 0x200A) || n == 0x2028 || n == 0x2029 ||
    n == 0x202F || n == 0x205F || n == 0x3000

/-- One pass of re.sub(r"\s+", " ", s): every maximal whitespace run becomes a
single space.  The Boolean records whether the previous character was part of a
whitespace run. -/
def collapseWsAux : Bool → List Char → List Char
  | _, [] => []
  | prevWs, c :: cs =>
    if pyIsSpace c then
      if prevWs then collapseWsAux true cs else ' ' :: collapseWsAux true cs
    else c :: collapseWsAux false cs

def collapseWs (cs : List Char) : List Char := collapseWsAux false cs

def lstripWs (cs : List Char) : List Char := cs.dropWhile pyIsSpace

def rstripWs (cs : List Char) : List Char := (cs.reverse.dropWhile pyIsSpace).reverse

/-- bot.py normalize_ws: replace non-breaking spaces, collapse whitespace runs
to single spaces, and strip the ends.  (The Python None guard is vacuous for
total String inputs.) -/
def normalize_ws (s : String) : String :=
  String.mk (rstripWs (lstripWs (collapseWs (s.data.map fun c => if c = '\xA0' then ' ' else c))))

/-- bot.py strip_bullets: normalize, then lstrip the bullet glyphs and spaces,
then strip whitespace again. -/
def strip_bullets (s : String) : String :=
  let t := (normalize_ws s).data.dropWhile fun c =>
    c == '•' || c == '*' || c == '·' || c == '-' || c == ' '
  String.mk (rstripWs (lstripWs t))

/-- Python str.lower restricted to the code points the scraped pages contain:
ASCII letters and the German capital umlauts. -/
def pyLowerChar (c : Char) : Char :=
  if 65 ≤ c.toNat && c.toNat ≤ 90 then Char.ofNat (c.toNat + 32)
  else if c = 'Ä' then 'ä'
  else if c = 'Ö' then 'ö'
  else if c = 'Ü' then 'ü'
  else c

def pyLower (s : String) : String := String.mk (s.data.map pyLowerChar)

/-- Scan for the first match of the regex (\d{1,2}:\d{2}) (bot.py
first_time_token): at each position the greedy two-digit hour is tried first,
then the one-digit hour, then the scan advances one character. -/
def ftt_scan : List Char → Option (List Char)
  | c0 :: c1 :: c2 :: c3 :: c4 :: rest =>
    if c0.isDigit && c1.isDigit && c2 == ':' && c3.isDigit && c4.isDigit then
      some [c0, c1, c2, c3, c4]
    else if c0.isDigit && c1 == ':' && c2.isDigit && c3.isDigit then
      some [c0, c1, c2, c3]
    else ftt_scan (c1 :: c2 :: c3 :: c4 :: rest)
  | [c0, c1, c2, c3] =>
    if c0.isDigit && c1 == ':' && c2.isDigit && c3.isDigit then
      some [c0, c1, c2, c3]
    else ftt_scan [c1, c2, c3]
  | _ => none

/-- bot.py first_time_token: the first HH:MM-like token of the string, or the
sentinel "99:99". -/
def first_time_token (s : String) : String :=
  match ftt_scan s.data with
  | some cs => String.mk cs
  | none => "99:99"

/-! ## SHA-1 (hashlib.sha1(...).hexdigest() over the UTF-8 encoding) -/

/-- UTF-8 encoding of one scalar value (Char carries no surrogates). -/
def utf8BytesChar (c : Char) : List Nat :=
  let n := c.toNat
  if n < 0x80 then [n]
  else if n < 0x800 then [0xC0 + n / 64, 0x80 + n % 64]
  else if n < 0x10000 then [0xE0 + n / 4096, 0x80 + (n / 64) % 64, 0x80 + n % 64]
  else [0xF0 + n / 262144, 0x80 + (n / 4096) % 64, 0x80 + (n / 64) % 64, 0x80 + n % 64]

def utf8Bytes (s : String) : List Nat := (s.data.map utf8BytesChar).flatten

def rotl (n x : Nat) : Nat := ((x <<< n) ||| (x >>> (32 - n))) % 2 ^ 32

def sha1K (t : Nat) : Nat :=
  if t < 20 then 0x5A827999
  else if t < 40 then 0x6ED9EBA1
  else if t < 60 then 0x8F1BBCDC
  else 0xCA62C1D6

def sha1F (t b c d : Nat) : Nat :=
  if t < 20 then (b &&& c) ||| (((2 ^ 32 - 1) ^^^ b) &&& d)
  else if t < 40 then b ^^^ c ^^^ d
  else if t < 60 then (b &&& c) ||| (b &&& d) ||| (c &&& d)
  else b ^^^ c ^^^ d

abbrev Sha1State := Nat × Nat × Nat × Nat × Nat

def sha1Schedule (w16 : List Nat) : List Nat :=
  (List.range 80).foldl
    (fun w t =>
      if t < 16 then w ++ [w16.getD t 0]
      else
        w ++ [rotl 1 ((w.getD (t - 3) 0) ^^^ (w.getD (t - 8) 0) ^^^
          (w.getD (t - 14) 0) ^^^ (w.getD (t - 16) 0))])
    []

def sha1Round (st : Sha1State) (t wt : Nat) : Sha1State :=
  let (a, b, c, d, e) := st
  let tmp := (rotl 5 a + sha1F t b c d + e + sha1K t + wt) % 2 ^ 32
  (tmp, a, rotl 30 b, c, d)

def sha1Compress (h : Sha1State) (w16 : List Nat) : Sha1State :=
  let w := sha1Schedule w16
  let st := (List.range 80).foldl (fun st t => sha1Round st t (w.getD t 0)) h
  ((h.1 + st.1) % 2 ^ 32, (h.2.1 + st.2.1) % 2 ^ 32, (h.2.2.1 + st.2.2.1) % 2 ^ 32,
    (h.2.2.2.1 + st.2.2.2.1) % 2 ^ 32, (h.2.2.2.2 + st.2.2.2.2) % 2 ^ 32)

def bytesToWords : List Nat → List Nat
  | a :: b :: c :: d :: rest => (((a * 256 + b) * 256 + c) * 256 + d) :: bytesToWords rest
  | _ => []

def natToBytesBE : Nat → Nat → List Nat
  | 0, _ => []
  | k + 1, n => natToBytesBE k (n / 256) ++ [n % 256]

def sha1Pad (msg : List Nat) : List Nat :=
  let len := msg.length
  let zeros := (56 + 64 - (len + 1) % 64) % 64
  msg ++ [0x80] ++ List.replicate zeros 0 ++ natToBytesBE 8 (8 * len)

/-- Split into 64-byte chunks.  The fuel argument (structurally decreasing, at
least the list length at the top call, and every step consumes at least one
byte) keeps the recursion structural. -/
def sha1ChunksGo : Nat → List Nat → List (List Nat)
  | 0, _ => []
  | _, [] => []
  | fuel + 1, c :: msg => (c :: msg).take 64 :: sha1ChunksGo fuel ((c :: msg).drop 64)

def sha1Chunks (msg : List Nat) : List (List Nat) := sha1ChunksGo msg.length msg

def sha1Init : Sha1State := (0x67452301, 0xEFCDAB89, 0x98BADCFE, 0x10325476, 0xC3D2E1F0)

def sha1Words (msg : List Nat) : List Nat :=
  let hs := (sha1Chunks (sha1Pad msg)).foldl (fun h chunk => sha1Compress h (bytesToWords chunk)) sha1Init
  [hs.1, hs.2.1, hs.2.2.1, hs.2.2.2.1, hs.2.2.2.2]

def hexDigitChar (n : Nat) : Char :=
  if n < 10 then Char.ofNat (48 + n) else Char.ofNat (87 + n)

def wordToHex (w : Nat) : List Char :=
  (List.range 8).map fun i => hexDigitChar ((w >>> (28 - 4 * i)) % 16)

/-- hashlib.sha1(s.encode("utf-8")).hexdigest() -/
def sha1hex (s : String) : String :=
  String.mk ((sha1Words (utf8Bytes s)).map wordToHex).flatten

/-- bot.py sha_uid. -/
def sha_uid (pfx : String) (raw : String) : String := pfx ++ ":" ++ sha1hex raw

/-- bot.py stable_text_uid: hash of the normalized, lowercased semantic fields. -/
def stable_text_uid (date_str title time_str location : String) : String :=
  let raw := date_str ++ "|" ++ pyLower (normalize_ws title) ++ "|" ++
    pyLower (normalize_ws time_str) ++ "|" ++ pyLower (normalize_ws location)
  "txt:" ++ sha1hex raw

/-! ## The event record -/

/-- One event dict as built by bot.py (keys uid/title/datum/zeit/ort/url/source). -/
structure Event where
  uid : String
  title : String
  datum : String
  zeit : String
  ort : String
  url : String
  source : String
deriving DecidableEq, Repr

/-- Fixed constants of bot.py. -/
def INFO_URL : String := "https://sessionnet.owl-it.de/witzenhausen/bi/info.asp"

def BASE : String := "https://sessionnet.owl-it.de/witzenhausen/bi/"

def DAY_TOKENS : List String := ["Mo", "Di", "Mi", "Do", "Fr", "Sa", "So"]

/-! ## parse_date: datetime.strptime(d, "%d.%m.%Y").date() -/

def digitVal (c : Char) : Nat := c.toNat - 48

/-- The alternation (3[01]|[12]\d|0[1-9]|[1-9]) that CPython strptime compiles
for %d, tried in its backtracking order. -/
def parse_day : List Char → Option (Nat × List Char)
  | [] => none
  | c :: cs =>
    if c = '3' then
      match cs with
      | c2 :: cs2 =>
        if c2 = '0' || c2 = '1' then some (30 + digitVal c2, cs2) else some (3, cs)
      | [] => some (3, cs)
    else if c = '1' || c = '2' then
      match cs with
      | c2 :: cs2 =>
        if c2.isDigit then some (10 * digitVal c + digitVal c2, cs2)
        else some (digitVal c, cs)
      | [] => some (digitVal c, cs)
    else if c = '0' then
      match cs with
      | c2 :: cs2 => if 49 ≤ c2.toNat && c2.toNat ≤ 57 then some (digitVal c2, cs2) else none
      | [] => none
    else if 49 ≤ c.toNat && c.toNat ≤ 57 then some (digitVal c, cs)
    else none

/-- The alternation (1[0-2]|0[1-9]|[1-9]) CPython strptime compiles for %m. -/
def parse_month : List Char → Option (Nat × List Char)
  | [] => none
  | c :: cs =>
    if c = '1' then
      match cs with
      | c2 :: cs2 =>
        if c2 = '0' || c2 = '1' || c2 = '2' then some (10 + digitVal c2, cs2)
        else some (1, cs)
      | [] => some (1, cs)
    else if c = '0' then
      match cs with
      | c2 :: cs2 => if 49 ≤ c2.toNat && c2.toNat ≤ 57 then some (digitVal c2, cs2) else none
      | [] => none
    else if 50 ≤ c.toNat && c.toNat ≤ 57 then some (digitVal c, cs)
    else none

/-- Exactly four digits (\d\d\d\d), as CPython strptime compiles %Y. -/
def parse_year4 : List Char → Option (Nat × List Char)
  | c1 :: c2 :: c3 :: c4 :: rest =>
    if c1.isDigit && c2.isDigit && c3.isDigit && c4.isDigit then
      some (1000 * digitVal c1 + 100 * digitVal c2 + 10 * digitVal c3 + digitVal c4, rest)
    else none
  | _ => none

/-- Full "%d.%m.%Y" match: day, literal dot, month, literal dot, four-digit
year, and no unconverted data may remain. -/
def parse_dmy (cs : List Char) : Option (Nat × Nat × Nat) :=
  match parse_day cs with
  | none => none
  | some (d, cs1) =>
    match cs1 with
    | '.' :: cs2 =>
      match parse_month cs2 with
      | none => none
      | some (m, cs3) =>
        match cs3 with
        | '.' :: cs4 =>
          match parse_year4 cs4 with
          | none => none
          | some (y, cs5) => if cs5 = [] then some (d, m, y) else none
        | _ => none
    | _ => none

def pyIsLeap (y : Nat) : Bool := y % 4 == 0 && (y % 100 != 0 || y % 400 == 0)

def days_in_month (y m : Nat) : Nat :=
  if m = 2 then (if pyIsLeap y then 29 else 28)
  else if m = 4 || m = 6 || m = 9 || m = 11 then 30
  else 31

/-- bot.py parse_date: strptime "%d.%m.%Y" into a date, None on any failure
(including the datetime calendar validation year ≥ 1, day ≤ days in month).
The date is the (year, month, day) triple. -/
def parse_date (s : String) : Option (Nat × Nat × Nat) :=
  match parse_dmy s.data with
  | none => none
  | some (d, m, y) => if 1 ≤ y ∧ d ≤ days_in_month y m then some (y, m, d) else none

/-! ## The sort key -/

def digitChar (n : Nat) : Char := Char.ofNat (48 + n)

def pad2 (n : Nat) : List Char := [digitChar (n / 10), digitChar (n % 10)]

def pad4 (n : Nat) : List Char := pad2 (n / 100) ++ pad2 (n % 100)

/-- date.isoformat(): zero-padded YYYY-MM-DD. -/
def date_isoformat (t : Nat × Nat × Nat) : String :=
  String.mk (pad4 t.1 ++ '-' :: pad2 t.2.1 ++ '-' :: pad2 t.2.2)

/-- datetime.max.date() -/
def datetime_max_date : Nat × Nat × Nat := (9999, 12, 31)

/-- bot.py event_sort_key: (iso date or sentinel maximum, first time token or
"99:99", lowercased normalized title). -/
def event_sort_key (ev : Event) : String × String × String :=
  (date_isoformat ((parse_date (normalize_ws ev.datum)).getD datetime_max_date),
   first_time_token (normalize_ws ev.zeit),
   pyLower (normalize_ws ev.title))

/-- Python string comparison: code-point lexicographic, i.e. List Char order on
the character data. -/
def pyStrLt (a b : String) : Prop := a.data < b.data

instance (a b : String) : Decidable (pyStrLt a b) := by
  unfold pyStrLt; infer_instance

/-- Python comparison of the 3-tuples of strings returned by event_sort_key. -/
def keyLt (a b : String × String × String) : Prop :=
  pyStrLt a.1 b.1 ∨ (a.1 = b.1 ∧ (pyStrLt a.2.1 b.2.1 ∨ (a.2.1 = b.2.1 ∧ pyStrLt a.2.2 b.2.2)))

instance (a b : String × String × String) : Decidable (keyLt a b) := by
  unfold keyLt; infer_instance

/-- The strict key comparison used by sorted(..., key=event_sort_key). -/
def event_lt (a b : Event) : Bool :=
  decide (keyLt (event_sort_key a) (event_sort_key b))

/-- Stable insert: x goes after every already-placed element strictly below it
and before everything else (so before later elements with equal keys). -/
def stableInsert (lt : α → α → Bool) (x : α) : List α → List α
  | [] => [x]
  | y :: ys => if lt y x then y :: stableInsert lt x ys else x :: y :: ys

/-- Python sorted(...): the stable ascending permutation.  A stable ascending
sort is uniquely determined by the strict comparison, so stable insertion sort
computes exactly what CPython's stable sort returns. -/
def pySorted (lt : α → α → Bool) : List α → List α
  | [] => []
  | x :: rest => stableInsert lt x (pySorted lt rest)

/-! ## format_message -/

def pyStrip (s : String) : String := String.mk (rstripWs (lstripWs s.data))

def pyStartsWith (s pfx : String) : Bool := pfx.data.isPrefixOf s.data

/-- bot.py format_message: the non-empty fields, one per line, then the link
line, joined and stripped. -/
def format_message (ev : Event) : String :=
  let title := normalize_ws ev.title
  let datum := normalize_ws ev.datum
  let zeit := normalize_ws ev.zeit
  let ort := normalize_ws ev.ort
  let url := pyStrip ev.url
  let out := (if title ≠ "" then [title] else []) ++ (if datum ≠ "" then [datum] else []) ++
    (if zeit ≠ "" then [zeit] else []) ++ (if ort ≠ "" then [ort] else []) ++
    (if url ≠ "" then ["Link: " ++ url] else [])
  pyStrip (String.intercalate "\n" out)

/-! ## The text-block extractor (parse_text_events_from_info) -/

/-- Word characters of Python's regex \b (ASCII word characters plus the German
letters the scraped pages contain). -/
def pyIsWordChar (c : Char) : Bool :=
  c.isAlpha || c.isDigit || c == '_' || c == 'ä' || c == 'ö' || c == 'ü' ||
    c == 'Ä' || c == 'Ö' || c == 'Ü' || c == 'ß'

def wordBoundaryAfter : List Char → Bool
  | [] => true
  | c :: _ => !(pyIsWordChar c)

/-- re.match(r"^(\d{2}\.\d{2}\.\d{4})\b(.*)$", line): the date prefix and the
trailing text. -/
def date_line_match (cs : List Char) : Option (String × String) :=
  match cs with
  | d1 :: d2 :: '.' :: m1 :: m2 :: '.' :: y1 :: y2 :: y3 :: y4 :: rest =>
    if d1.isDigit && d2.isDigit && m1.isDigit && m2.isDigit && y1.isDigit &&
        y2.isDigit && y3.isDigit && y4.isDigit && wordBoundaryAfter rest then
      some (String.mk [d1, d2, '.', m1, m2, '.', y1, y2, y3, y4], String.mk rest)
    else none
  | _ => none

/-- The skip rule of the extractor: while lines[j] is blank or a day-name
abbreviation, advance. -/
def skip_blank_day (ls : List String) : List String :=
  ls.dropWhile fun l => l == "" || DAY_TOKENS.contains l

def mk_text_event (date_str title time_line location : String) : Event :=
  { uid := stable_text_uid date_str title time_line location
    title := title
    datum := date_str
    zeit := time_line
    ort := location
    url := INFO_URL
    source := "sessionnet_text" }

/-- The cursor loop of parse_text_events_from_info, on the lines after the
section header.  Every iteration of the Python while loop advances the cursor
by at least one line, so the line count is fuel enough; the fuel argument only
keeps the recursion structural. -/
def text_scan_go : Nat → List String → List Event
  | 0, _ => []
  | _, [] => []
  | fuel + 1, line :: rest =>
    if pyStartsWith line "Software:" then []
    else if DAY_TOKENS.contains line then text_scan_go fuel rest
    else
      match date_line_match line.data with
      | none => text_scan_go fuel rest
      | some (date_str, trailing) =>
        let rest_field := normalize_ws trailing
        if rest_field ≠ "" then
          match skip_blank_day (rest.dropWhile fun l => l == "") with
          | [] => []
          | timeLine :: ls2 =>
            match skip_blank_day ls2 with
            | [] => [mk_text_event date_str rest_field (strip_bullets timeLine) ""]
            | locLine :: ls4 =>
              mk_text_event date_str rest_field (strip_bullets timeLine)
                (strip_bullets locLine) :: text_scan_go fuel ls4
        else
          match rest.dropWhile fun l => l == "" with
          | [] => []
          | titleLine :: afterTitle =>
            match skip_blank_day afterTitle with
            | [] => []
            | timeLine :: ls2 =>
              match skip_blank_day ls2 with
              | [] => [mk_text_event date_str (normalize_ws titleLine) (strip_bullets timeLine) ""]
              | locLine :: ls4 =>
                mk_text_event date_str (normalize_ws titleLine) (strip_bullets timeLine)
                  (strip_bullets locLine) :: text_scan_go fuel ls4

def text_scan (ls : List String) : List Event := text_scan_go ls.length ls

/-- bot.py parse_text_events_from_info, taking the flattened text lines of the
info page (the output of the out-of-scope BeautifulSoup get_text step); the
function normalizes and drops empty lines exactly as the source does, then
scans from the section header. -/
def parse_text_events_from_info (rawLines : List String) : List Event :=
  let lines := (rawLines.map normalize_ws).filter fun l => l != ""
  match lines.dropWhile (fun l => l != "Aktuelle Sitzungen") with
  | [] => []
  | _ :: after => text_scan after

/-! ## The linked-detail extractor (parse_linked_events_from_info) -/

/-- re.search(r"__ksinr=(\d+)", href): the digit run after the first
occurrence of "__ksinr=" that is followed by at least one digit. -/
def ksinr_scan : List Char → Option (List Char)
  | [] => none
  | c :: cs =>
    if "__ksinr=".data.isPrefixOf (c :: cs) then
      match ((c :: cs).drop 8).takeWhile Char.isDigit with
      | [] => ksinr_scan cs
      | run => some run
    else ksinr_scan cs

/-- bot.py extract_ksinr. -/
def extract_ksinr (href : String) : Option String :=
  (ksinr_scan href.data).map String.mk

/-- Model of urllib.parse.urljoin(BASE, href) for the reference shapes the
SessionNet pages use (absolute, host-relative and document-relative targets);
BASE ends in a slash, so a relative href is appended to it. -/
def urljoin_base (href : String) : String :=
  if pyStartsWith href "http://" || pyStartsWith href "https://" then href
  else if pyStartsWith href "/" then "https://sessionnet.owl-it.de" ++ href
  else BASE ++ href

/-- The discovery loop of parse_linked_events_from_info: walk the hrefs of the
page, keep those with a ksinr token, deduplicate by ksinr (first occurrence
wins), collecting (ksinr, absolute detail url). -/
def collect_detail_urls_aux (seen : List String) : List String → List (String × String)
  | [] => []
  | href :: rest =>
    match extract_ksinr href with
    | none => collect_detail_urls_aux seen rest
    | some ksinr =>
      if seen.contains ksinr then collect_detail_urls_aux seen rest
      else (ksinr, urljoin_base href) :: collect_detail_urls_aux (ksinr :: seen) rest

def collect_detail_urls (hrefs : List String) : List (String × String) :=
  collect_detail_urls_aux [] hrefs

/-- bot.py pick_value_from_detail on the flattened lines of a detail page:
normalize, drop empties, and return the line following the first exact label
match (empty when the label is absent or last). -/
def pick_from_lines : List String → String → String
  | a :: b :: rest, label => if a = label then b else pick_from_lines (b :: rest) label
  | _, _ => ""

def pick_value_from_detail (rawLines : List String) (label : String) : String :=
  pick_from_lines ((rawLines.map normalize_ws).filter fun l => l != "") label

/-- bot.py fetch_session_details plus the uid/source assignment done by its
caller: the four labeled fields of a fetched detail page. -/
def session_detail_event (rawLines : List String) (detail_url ksinr : String) : Event :=
  { uid := "ksinr:" ++ ksinr
    title := pick_value_from_detail rawLines "Gremium"
    datum := pick_value_from_detail rawLines "Datum"
    zeit := pick_value_from_detail rawLines "Zeit"
    ort := pick_value_from_detail rawLines "Raum"
    url := detail_url
    source := "sessionnet_detail" }

/-- The fetch loop of parse_linked_events_from_info: events are accumulated in
order; a raising fetch aborts the loop and the collected events are lost. -/
def linked_fetch_loop (fetch : String → Except Unit (List String)) :
    List (String × String) → Except Unit (List Event)
  | [] => Except.ok []
  | p :: rest =>
    match fetch p.2 with
    | Except.error e => Except.error e
    | Except.ok rawLines =>
      match linked_fetch_loop fetch rest with
      | Except.error e => Except.error e
      | Except.ok evs => Except.ok (session_detail_event rawLines p.2 p.1 :: evs)

/-- bot.py parse_linked_events_from_info: fetch every deduplicated detail page.
The per-page fetch has no exception handler, so the Except error of a failing
fetch propagates out of the whole extractor. -/
def parse_linked_events_from_info (hrefs : List String)
    (fetch : String → Except Unit (List String)) : Except Unit (List Event) :=
  linked_fetch_loop fetch (collect_detail_urls hrefs)

/-! ## The external-site extractor (parse_witz_event_detail, parse_witz_events) -/

/-- Generic left-to-right regex scan: at every position whose preceding
character admits a \b boundary before a word character, try the pattern; else
advance one character.  (All patterns below start with \d, so the boundary
holds exactly when the previous character is not a word character.) -/
def scan_with_prev (tryAt : List Char → Option (List Char)) :
    Option Char → List Char → Option (List Char)
  | _, [] => none
  | prev, c :: cs =>
    let boundaryOk := match prev with
      | none => true
      | some p => !(pyIsWordChar p)
    match if boundaryOk then tryAt (c :: cs) else none with
    | some t => some t
    | none => scan_with_prev tryAt (some c) cs

/-- The tail \s*Uhr\b of the time regex, checked after the captured digits. -/
def uhr_after (cs : List Char) : Bool :=
  let rest := cs.dropWhile pyIsSpace
  "Uhr".data.isPrefixOf rest && wordBoundaryAfter (rest.drop 3)

/-- One-digit-hour attempt of (\d{1,2}:\d{2})\s*Uhr\b at a fixed position. -/
def try_time1_at : List Char → Option (List Char)
  | c0 :: c1 :: c2 :: c3 :: rest =>
    if c0.isDigit && c1 == ':' && c2.isDigit && c3.isDigit && uhr_after rest then
      some [c0, ':', c2, c3]
    else none
  | _ => none

/-- re.search(r"\b(\d{1,2}:\d{2})\s*Uhr\b", ...) at a fixed position: the
greedy two-digit hour first, then the one-digit backtrack. -/
def try_time_at (cs : List Char) : Option (List Char) :=
  match cs with
  | c0 :: c1 :: c2 :: c3 :: c4 :: rest =>
    if c0.isDigit && c1.isDigit && c2 == ':' && c3.isDigit && c4.isDigit && uhr_after rest then
      some [c0, c1, ':', c3, c4]
    else try_time1_at cs
  | _ => try_time1_at cs

/-- The per-line time search of parse_witz_event_detail, with the line index
(time_idx) and the value m.group(1) + " Uhr". -/
def find_time_aux (i : Nat) : List String → Option (Nat × String)
  | [] => none
  | ln :: rest =>
    match scan_with_prev try_time_at none ln.data with
    | some t => some (i, String.mk t ++ " Uhr")
    | none => find_time_aux (i + 1) rest

/-- re.search(r"\b(\d{2}\.\d{2}\.\d{4})\b", ln) at a fixed position. -/
def try_date_at : List Char → Option (List Char)
  | d1 :: d2 :: c1 :: m1 :: m2 :: c2 :: y1 :: y2 :: y3 :: y4 :: rest =>
    if d1.isDigit && d2.isDigit && c1 == '.' && m1.isDigit && m2.isDigit && c2 == '.' &&
        y1.isDigit && y2.isDigit && y3.isDigit && y4.isDigit && wordBoundaryAfter rest then
      some [d1, d2, '.', m1, m2, '.', y1, y2, y3, y4]
    else none
  | _ => none

/-- The character class [A-Za-zÄÖÜäöü] of the German month-name regex. -/
def monthClassChar (c : Char) : Bool :=
  (65 ≤ c.toNat && c.toNat ≤ 90) || (97 ≤ c.toNat && c.toNat ≤ 122) ||
    c == 'Ä' || c == 'Ö' || c == 'Ü' || c == 'ä' || c == 'ö' || c == 'ü'

/-- The \s*\d{4}\b tail of the German month-date regex. -/
def try_year_part (acc : List Char) (cs : List Char) : Option (List Char) :=
  let sp2 := cs.takeWhile pyIsSpace
  match cs.dropWhile pyIsSpace with
  | y1 :: y2 :: y3 :: y4 :: rest =>
    if y1.isDigit && y2.isDigit && y3.isDigit && y4.isDigit && wordBoundaryAfter rest then
      some (acc ++ sp2 ++ [y1, y2, y3, y4])
    else none
  | _ => none

/-- The \s*[A-Za-zÄÖÜäöü]+\.?\s*\d{4}\b tail after the day digits and dot. -/
def try_de_date_tail (cs : List Char) : Option (List Char) :=
  let sp1 := cs.takeWhile pyIsSpace
  let r1 := cs.dropWhile pyIsSpace
  let letters := r1.takeWhile monthClassChar
  let r2 := r1.dropWhile monthClassChar
  if letters = [] then none
  else
    match r2 with
    | '.' :: r3 =>
      match try_year_part (sp1 ++ letters ++ ['.']) r3 with
      | some t => some t
      | none => try_year_part (sp1 ++ letters) r2
    | _ => try_year_part (sp1 ++ letters) r2

/-- re.search(r"\b(\d{1,2}\.\s*[A-Za-zÄÖÜäöü]+\.?\s*\d{4})\b", ln) at a fixed
position: greedy two-digit day, then one-digit backtrack. -/
def try_de_date_at : List Char → Option (List Char)
  | [] => none
  | c0 :: rest =>
    if !c0.isDigit then none
    else
      match rest with
      | [] => none
      | c1 :: rest1 =>
        if c1.isDigit then
          match rest1 with
          | '.' :: r => (try_de_date_tail r).map fun t => c0 :: c1 :: '.' :: t
          | _ => none
        else if c1 = '.' then
          (try_de_date_tail rest1).map fun t => c0 :: '.' :: t
        else none

/-! ### parse_de_month_date_to_ddmmyyyy -/

/-- str.replace("..", "."), left to right, non-overlapping. -/
def replaceDots : List Char → List Char
  | '.' :: '.' :: rest => '.' :: replaceDots rest
  | c :: rest => c :: replaceDots rest
  | [] => []

/-- str.replace(" ,", ","), left to right, non-overlapping. -/
def replaceSpaceComma : List Char → List Char
  | ' ' :: ',' :: rest => ',' :: replaceSpaceComma rest
  | c :: rest => c :: replaceSpaceComma rest
  | [] => []

/-- re.match(r"^(\d{2})\.(\d{2})\.(\d{4})$", s) as a full-string test. -/
def is_full_numeric_date (cs : List Char) : Bool :=
  match cs with
  | [a, b, '.', c, d, '.', e, f, g, h] =>
    a.isDigit && b.isDigit && c.isDigit && d.isDigit && e.isDigit && f.isDigit &&
      g.isDigit && h.isDigit
  | _ => false

def GERMAN_MONTHS : List (String × String) :=
  [("jan", "01"), ("januar", "01"),
   ("feb", "02"), ("februar", "02"),
   ("mär", "03"), ("maerz", "03"), ("märz", "03"),
   ("apr", "04"), ("april", "04"),
   ("mai", "05"),
   ("jun", "06"), ("juni", "06"),
   ("jul", "07"), ("juli", "07"),
   ("aug", "08"), ("august", "08"),
   ("sep", "09"), ("sept", "09"), ("september", "09"),
   ("okt", "10"), ("oktober", "10"),
   ("nov", "11"), ("november", "11"),
   ("dez", "12"), ("dec", "12"), ("dezember", "12")]

def german_months_get (k : String) : Option String :=
  (GERMAN_MONTHS.find? fun p => p.1 == k).map Prod.snd

/-- The lowercase umlaut folding mon_raw.replace("ä","ae")... of the source. -/
def umlautReplace : List Char → List Char
  | [] => []
  | c :: r =>
    (if c = 'ä' then ['a', 'e']
     else if c = 'ö' then ['o', 'e']
     else if c = 'ü' then ['u', 'e']
     else [c]) ++ umlautReplace r

def stripDots (cs : List Char) : List Char :=
  ((cs.dropWhile fun c => c == '.').reverse.dropWhile fun c => c == '.').reverse

/-- The year tail of the anchored German-date match of
parse_de_month_date_to_ddmmyyyy, returning the day/month-letters/year groups. -/
def de_fin (d : Nat) (letters : List Char) (r : List Char) : Option (Nat × List Char × Nat) :=
  match r.dropWhile pyIsSpace with
  | [y1, y2, y3, y4] =>
    if y1.isDigit && y2.isDigit && y3.isDigit && y4.isDigit then
      some (d, letters, 1000 * digitVal y1 + 100 * digitVal y2 + 10 * digitVal y3 + digitVal y4)
    else none
  | _ => none

/-- The tail after "day." of re.match(r"^(\d{1,2})\.\s*([A-Za-zÄÖÜäöü]+)\.?\s*(\d{4})$"). -/
def de_tail_groups (d : Nat) (cs : List Char) : Option (Nat × List Char × Nat) :=
  let r1 := cs.dropWhile pyIsSpace
  let letters := r1.takeWhile monthClassChar
  let r2 := r1.dropWhile monthClassChar
  if letters = [] then none
  else
    match r2 with
    | '.' :: r3 =>
      match de_fin d letters r3 with
      | some x => some x
      | none => de_fin d letters r2
    | _ => de_fin d letters r2

/-- The anchored German-date match, with the greedy two-digit day first. -/
def de_date_groups : List Char → Option (Nat × List Char × Nat)
  | [] => none
  | c0 :: rest =>
    if !c0.isDigit then none
    else
      match rest with
      | [] => none
      | c1 :: rest1 =>
        if c1.isDigit then
          match rest1 with
          | '.' :: r => de_tail_groups (10 * digitVal c0 + digitVal c1) r
          | _ => none
        else if c1 = '.' then de_tail_groups (digitVal c0) rest1
        else none

/-- bot.py parse_de_month_date_to_ddmmyyyy. -/
def parse_de_month_date_to_ddmmyyyy (s : String) : String :=
  let s1 := normalize_ws s
  let s2 := replaceSpaceComma (replaceDots s1.data)
  let s3 := rstripWs (lstripWs (collapseWs s2))
  if is_full_numeric_date s3 then String.mk s3
  else
    match de_date_groups s3 with
    | none => String.mk s3
    | some (day, letters, year) =>
      let mon_raw := umlautReplace (letters.map pyLowerChar)
      match german_months_get (String.mk mon_raw) with
      | some mn => String.mk (pad2 day ++ '.' :: mn.data ++ '.' :: pad4 year)
      | none =>
        match german_months_get (String.mk (stripDots mon_raw)) with
        | some mn => String.mk (pad2 day ++ '.' :: mn.data ++ '.' :: pad4 year)
        | none => String.mk s3

/-! ### parse_witz_event_detail -/

/-- The fetched page of an event permalink: the h1/h2 heading texts and the
flattened page text (BeautifulSoup get_text with newline separators is the
out-of-scope HTML step). -/
structure WitzPage where
  h1 : Option String
  h2 : Option String
  body : String

def witz_cut_marker : String := "Das könnte Sie auch interessieren"

/-- text.split(marker)[0]: everything before the first marker occurrence. -/
def split_before (marker : List Char) : List Char → List Char
  | [] => []
  | c :: rest =>
    if marker.isPrefixOf (c :: rest) then []
    else c :: split_before marker rest

/-- str.split("\n"). -/
def splitOnNl : List Char → List (List Char)
  | [] => [[]]
  | c :: rest =>
    if c = '\n' then [] :: splitOnNl rest
    else
      match splitOnNl rest with
      | l :: ls => (c :: l) :: ls
      | [] => [[c]]

/-- \b\d{5}\b at a fixed position. -/
def try_five_digit_at : List Char → Option (List Char)
  | a :: b :: c :: d :: e :: rest =>
    if a.isDigit && b.isDigit && c.isDigit && d.isDigit && e.isDigit && wordBoundaryAfter rest then
      some [a, b, c, d, e]
    else none
  | _ => none

/-- \b\d+\b at a fixed position: the greedy digit run must end at a non-word
character or the end (shorter runs keep a digit adjacent and fail \b). -/
def try_digit_run_at (cs : List Char) : Option (List Char) :=
  match cs.takeWhile Char.isDigit with
  | [] => none
  | run => if wordBoundaryAfter (cs.drop run.length) then some run else none

/-- "pat" in s (Python substring test). -/
def list_contains_sub (pat : List Char) : List Char → Bool
  | [] => pat.isEmpty
  | c :: cs => pat.isPrefixOf (c :: cs) || list_contains_sub pat cs

def containsSub (s pat : String) : Bool := list_contains_sub pat.data s.data

/-- The backwards date search of parse_witz_event_detail over the window of
lines, preferring the dd.mm.yyyy pattern, else the German month pattern fed to
parse_de_month_date_to_ddmmyyyy; first hit wins. -/
def witz_date_from_window : List String → String
  | [] => ""
  | ln :: rest =>
    match scan_with_prev try_date_at none ln.data with
    | some d => String.mk d
    | none =>
      match scan_with_prev try_de_date_at none ln.data with
      | some t => parse_de_month_date_to_ddmmyyyy (String.mk t)
      | none => witz_date_from_window rest

/-- range(time_idx, max(-1, time_idx - 6), -1): the lines from index
max(0, ti-5) to ti, iterated backwards. -/
def witz_find_date (lines : List String) (ti : Nat) : String :=
  witz_date_from_window (((lines.take (ti + 1)).drop (ti - 5)).reverse)

/-- The location search after the time line: skip the two placeholder strings
and link-like lines; accept the first line containing a postal-code-like or any
digit token. -/
def witz_ort_from : List String → String
  | [] => ""
  | ln :: rest =>
    let low := pyLower ln
    if low = "veranstalter" || low = "keine angabe" then witz_ort_from rest
    else if pyStartsWith low "www." || containsSub low "http" then witz_ort_from rest
    else if (scan_with_prev try_five_digit_at none ln.data).isSome ||
        (scan_with_prev try_digit_run_at none ln.data).isSome then ln
    else witz_ort_from rest

/-- range(time_idx + 1, min(len(lines), time_idx + 8)). -/
def witz_find_ort (lines : List String) (ti : Nat) : String :=
  witz_ort_from ((lines.drop (ti + 1)).take 7)

/-- The title fallback: the first of the first 20 lines that is non-empty,
longer than 3 characters and not the skip-link. -/
def witz_title_fallback (lines : List String) : String :=
  match (lines.take 20).find? (fun ln =>
      ln != "" && decide (3 < ln.data.length) &&
        !(containsSub ln "Skip to content")) with
  | some ln => ln
  | none => ""

/-- url.rstrip("/") + "/". -/
def rstrip_slash (s : String) : String :=
  String.mk ((s.data.reverse.dropWhile fun c => c == '/').reverse)

def with_slash (s : String) : String := rstrip_slash s ++ "/"

/-- The line flattening of parse_witz_event_detail: cut the page text at the
related-content marker, split into normalized non-empty lines. -/
def witz_lines (pg : WitzPage) : List String :=
  ((splitOnNl (split_before witz_cut_marker.data pg.body.data)).map
    (fun cs => normalize_ws (String.mk cs))).filter fun l => l != ""

/-- bot.py parse_witz_event_detail after the fetch: headline title, cut the
text at the related-content marker, flatten to normalized non-empty lines, find
the time line, search the date backwards and the location forwards from it,
fall back for the title; the uid hashes only the slash-normalized url. -/
def parse_witz_event_detail (url : String) (pg : WitzPage) : Event :=
  let title0 := match pg.h1 with
    | some t => normalize_ws t
    | none => ""
  let title1 := if title0 = "" then
      (match pg.h2 with
       | some t => normalize_ws t
       | none => "")
    else title0
  let lines := witz_lines pg
  let tm := find_time_aux 0 lines
  let time_val := match tm with
    | some (_, t) => t
    | none => ""
  let date_val := match tm with
    | some (ti, _) => witz_find_date lines ti
    | none => ""
  let ort_val := match tm with
    | some (ti, _) => witz_find_ort lines ti
    | none => ""
  let title := if title1 = "" then witz_title_fallback lines else title1
  { uid := sha_uid "wz" (with_slash url)
    title := title
    datum := date_val
    zeit := time_val
    ort := ort_val
    url := with_slash url
    source := "witz" }

/-! ### parse_witz_events -/

def wz_uid (u : String) : String := sha_uid "wz" (with_slash u)

/-- The new_urls filter of parse_witz_events: discovered urls whose uid is not
in the persisted seen-set. -/
def witz_new_urls (urls : List String) (posted : Finset String) : List String :=
  urls.filter fun u => decide (wz_uid u ∉ posted)

/-- bot.py parse_witz_events: uids of every discovered url; detail fetch only
for the first 60 unseen urls, each page failure skipping just that url. -/
def parse_witz_events (urls : List String) (state_posted : Finset String)
    (fetch : String → Except Unit WitzPage) : Finset String × List Event :=
  let current_uids := (urls.map wz_uid).toFinset
  let new_events := ((witz_new_urls urls state_posted).take 60).filterMap fun u =>
    match fetch u with
    | Except.error _ => none
    | Except.ok pg => some (parse_witz_event_detail u pg)
  (current_uids, new_events)

/-! ## Merge of the two SessionNet views, and the run controller -/

/-- The (normalized date, lowercased normalized title) merge signature. -/
def sessionnet_sig (ev : Event) : String × String :=
  (normalize_ws ev.datum, pyLower (normalize_ws ev.title))

def linked_signatures (linked : List Event) : List (String × String) :=
  linked.map sessionnet_sig

/-- Python dict assignment m[k] = v: replace in place at an existing key, else
append. -/
def dictInsert (m : List (String × Event)) (k : String) (v : Event) : List (String × Event) :=
  if m.any fun p => p.1 == k then m.map fun p => if p.1 == k then (k, v) else p
  else m ++ [(k, v)]

/-- The merged dict of run(): all detail-linked events keyed by uid, then every
text event whose signature does not collide with a detail-linked one. -/
def merge_events (linked text : List Event) : List (String × Event) :=
  text.foldl
    (fun m ev =>
      if sessionnet_sig ev ∈ linked_signatures linked then m else dictInsert m ev.uid ev)
    (linked.foldl (fun m ev => dictInsert m ev.uid ev) [])

def merged_sessionnet (linked text : List Event) : List Event :=
  (merge_events linked text).map Prod.snd

/-- The whole run, with the out-of-scope transport supplied as inputs: the
flattened info-page lines and hrefs, the per-page fetchers, the persisted state
(a uid set plus the state-file-exists flag), the POST_EXISTING override, and
the Telegram sink as a success predicate on the message text. -/
structure RunInput where
  infoLines : List String
  infoHrefs : List String
  detailFetch : String → Except Unit (List String)
  witzUrls : List String
  witzFetch : String → Except Unit WitzPage
  stateExists : Bool
  posted : Finset String
  postExisting : Bool
  send : String → Bool

/-- What a run does externally: the messages delivered (in order, up to the
first failure) and the committed seen-set (none when the run raised before the
final save_state; the file stores it sorted, so the set is the content). -/
structure RunResult where
  sent : List String
  saved : Option (Finset String)

/-- The delivery loop: send each message; a failing tg_send raises, so the rest
of the loop is abandoned. -/
def sendLoop (send : String → Bool) : List Event → List String × Bool
  | [] => ([], true)
  | ev :: rest =>
    let msg := format_message ev
    if send msg then
      let r := sendLoop send rest
      (msg :: r.1, r.2)
    else ([], false)

def run_sessionnet_events (inp : RunInput) (linked : List Event) : List Event :=
  pySorted event_lt (merged_sessionnet linked (parse_text_events_from_info inp.infoLines))

def run_witz (inp : RunInput) : Finset String × List Event :=
  parse_witz_events inp.witzUrls inp.posted inp.witzFetch

def run_current_uids (inp : RunInput) (linked : List Event) : Finset String :=
  ((run_sessionnet_events inp linked).map Event.uid).toFinset ∪ (run_witz inp).1

def run_first (inp : RunInput) : Bool :=
  !inp.stateExists || decide (inp.posted = ∅)

def run_to_post (inp : RunInput) (linked : List Event) : List Event :=
  pySorted event_lt (((run_sessionnet_events inp linked).filter fun ev =>
    decide (ev.uid ∉ inp.posted)) ++ (run_witz inp).2)

/-- bot.py run(): linked extraction first (an error there aborts the run with
nothing sent and nothing saved), bootstrap short-circuit, then delivery in sort
order and the single final commit of old ∪ delivered ∪ observed uids. -/
def run (inp : RunInput) : RunResult :=
  match parse_linked_events_from_info inp.infoHrefs inp.detailFetch with
  | Except.error _ => { sent := [], saved := none }
  | Except.ok linked =>
    if run_first inp && !inp.postExisting then
      { sent := [], saved := some (run_current_uids inp linked) }
    else
      let r := sendLoop inp.send (run_to_post inp linked)
      { sent := r.1
        saved := if r.2 then
            some ((inp.posted ∪ ((run_to_post inp linked).map Event.uid).toFinset) ∪
              run_current_uids inp linked)
          else none }

/-! ## Concrete instances used in the claim analyses -/

def c1_url : String := "https://www.witzenhausen.eu/veranstaltungen/a/"

def c1_pageA : WitzPage :=
  { h1 := some "Konzert A", h2 := none, body := "10.05.2026 19:00 Uhr\nMarktplatz 1" }

def c1_pageB : WitzPage :=
  { h1 := some "Konzert B", h2 := none, body := "11.06.2026 20:00 Uhr\nBahnhof 2" }

def c2_url : String := "https://www.witzenhausen.eu/veranstaltungen/konzert/"

/-- A permalink page whose only date/time evidence is an embedded structured
event object (a JSON-LD block flattened into the page text): ISO timestamps,
no "HH:MM Uhr" token. -/
def c2_page : WitzPage :=
  { h1 := some "Konzert", h2 := none,
    body := "Konzert\n\x7b\"@type\":\"Event\",\"startDate\":\"2026-03-10T19:00:00\",\"endDate\":\"2026-03-10T21:00:00\"\x7d" }

def c3_hrefs : List String := ["si0057.asp?__ksinr=101", "si0057.asp?__ksinr=102"]

def c3_url1 : String := "https://sessionnet.owl-it.de/witzenhausen/bi/si0057.asp?__ksinr=101"

/-- A fetcher for which the first detail page loads and the second raises. -/
def c3_fetch : String → Except Unit (List String) := fun u =>
  if u == c3_url1 then Except.ok ["Gremium", "Stadtrat"] else Except.error ()

def c3_url2 : String := "https://sessionnet.owl-it.de/witzenhausen/bi/si0057.asp?__ksinr=102"

/-- A run whose SessionNet detail fetch fails on the second page while a text
event and an external event are available. -/
def c3_inp : RunInput :=
  { infoLines := ["Aktuelle Sitzungen", "01.02.2026 Rat", "18:00 Uhr", "Rathaus", "Software: v1"]
    infoHrefs := c3_hrefs
    detailFetch := c3_fetch
    witzUrls := ["https://www.witzenhausen.eu/veranstaltungen/a/"]
    witzFetch := fun _ => Except.ok c1_pageA
    stateExists := true, posted := {"qq"}, postExisting := false
    send := fun _ => true }

def c4_inp : RunInput :=
  { infoLines := [], infoHrefs := [], detailFetch := fun _ => Except.ok [],
    witzUrls := [], witzFetch := fun _ => Except.error (), stateExists := false,
    posted := ∅, postExisting := false, send := fun _ => true }

def c5_lines : List String :=
  ["Aktuelle Sitzungen", "01.02.2026 ABC", "18:00 Uhr", "Rathaus",
   "01.02.2026 abc", "18:00 Uhr", "Rathaus", "Software: v1"]

def c5_evA : Event := mk_text_event "01.02.2026" "ABC" "18:00 Uhr" "Rathaus"

def c5_evB : Event := mk_text_event "01.02.2026" "abc" "18:00 Uhr" "Rathaus"

def c5w_lines : List String :=
  ["Aktuelle Sitzungen", "02.03.2026 Stadtrat", "19:00 Uhr", "Saal", "Software: v1"]

def c5w_ev : Event := mk_text_event "02.03.2026" "Stadtrat" "19:00 Uhr" "Saal"

def c6_page1 : List String := ["Gremium", "Rat A", "Datum", "01.01.2026", "Zeit", "10:00 Uhr", "Raum", "R 1"]

def c6_page2 : List String := ["Gremium", "Rat B", "Datum", "02.01.2026", "Zeit", "11:00 Uhr", "Raum", "R 2"]

def c6_page3 : List String := ["Gremium", "Rat C", "Datum", "03.01.2026", "Zeit", "12:00 Uhr", "Raum", "R 3"]

def c6_url1 : String := "https://sessionnet.owl-it.de/witzenhausen/bi/to0040.asp?__ksinr=201"

def c6_url2 : String := "https://sessionnet.owl-it.de/witzenhausen/bi/to0040.asp?__ksinr=202"

def c6_url3 : String := "https://sessionnet.owl-it.de/witzenhausen/bi/to0040.asp?__ksinr=203"

/-- Three sessions; delivery of the second message raises. -/
def c6_inp : RunInput :=
  { infoLines := []
    infoHrefs := ["to0040.asp?__ksinr=201", "to0040.asp?__ksinr=202", "to0040.asp?__ksinr=203"]
    detailFetch := fun u =>
      if u == c6_url1 then Except.ok c6_page1
      else if u == c6_url2 then Except.ok c6_page2
      else Except.ok c6_page3
    witzUrls := [], witzFetch := fun _ => Except.error ()
    stateExists := true, posted := {"zz"}, postExisting := false
    send := fun m => m != format_message (session_detail_event c6_page2 c6_url2 "202") }

def c6_linked : List Event :=
  [session_detail_event c6_page1 c6_url1 "201",
   session_detail_event c6_page2 c6_url2 "202",
   session_detail_event c6_page3 c6_url3 "203"]

def c7_page1 : List String := ["Gremium", "Bau", "Datum", "05.02.2026", "Zeit", "14:00 Uhr", "Raum", "S 1"]

def c7_page2 : List String := ["Gremium", "Haupt", "Datum", "06.02.2026", "Zeit", "15:00 Uhr", "Raum", "S 2"]

def c7_url1 : String := "https://sessionnet.owl-it.de/witzenhausen/bi/to0040.asp?__ksinr=301"

def c7_url2 : String := "https://sessionnet.owl-it.de/witzenhausen/bi/to0040.asp?__ksinr=302"

/-- Two sessions, every delivery succeeds, non-empty persisted state. -/
def c7_inp : RunInput :=
  { infoLines := []
    infoHrefs := ["to0040.asp?__ksinr=301", "to0040.asp?__ksinr=302"]
    detailFetch := fun u => if u == c7_url1 then Except.ok c7_page1 else Except.ok c7_page2
    witzUrls := [], witzFetch := fun _ => Except.error ()
    stateExists := true, posted := {"pp"}, postExisting := false
    send := fun _ => true }

def c7_linked : List Event :=
  [session_detail_event c7_page1 c7_url1 "301",
   session_detail_event c7_page2 c7_url2 "302"]

def c8_timed : Event :=
  { uid := "a", title := "a", datum := "05.01.2026", zeit := "9:30 Uhr", ort := "", url := "", source := "" }

def c8_untimed : Event :=
  { uid := "b", title := "a", datum := "05.01.2026", zeit := "", ort := "", url := "", source := "" }

def c8_t0900 : Event :=
  { uid := "c", title := "a", datum := "05.01.2026", zeit := "09:00 Uhr", ort := "", url := "", source := "" }

def c8_later : Event :=
  { uid := "d", title := "a", datum := "06.01.2026", zeit := "09:00 Uhr", ort := "", url := "", source := "" }

def c9_lines : List String :=
  ["Aktuelle Sitzungen", "01.02.2026", "Ausschuss X", "18:00 Uhr", "Rathaus", "Software: v1"]

def c10_urls : List String :=
  List.replicate 61 "https://www.witzenhausen.eu/veranstaltungen/x/"

def c10_fetch : String → Except Unit WitzPage := fun _ => Except.error ()

/-! # Helper lemmas -/

theorem stableInsert_perm {α : Type} (lt : α → α → Bool) (x : α) (l : List α) :
    (stableInsert lt x l).Perm (x :: l) := by
  induction l with
  | nil => exact List.Perm.refl _
  | cons y ys ih =>
    simp only [stableInsert]
    split
    · exact (ih.cons y).trans (List.Perm.swap x y ys)
    · exact List.Perm.refl _

theorem pySorted_perm {α : Type} (lt : α → α → Bool) (l : List α) :
    (pySorted lt l).Perm l := by
  induction l with
  | nil => exact List.Perm.refl _
  | cons x rest ih => exact (stableInsert_perm lt x (pySorted lt rest)).trans (ih.cons x)

theorem mem_pySorted {α : Type} {lt : α → α → Bool} {l : List α} {x : α} :
    x ∈ pySorted lt l ↔ x ∈ l :=
  (pySorted_perm lt l).mem_iff

theorem dictInsert_mem_self (m : List (String × Event)) (k : String) (v : Event) :
    (k, v) ∈ dictInsert m k v := by
  unfold dictInsert
  split
  · next h =>
    rcases List.any_eq_true.mp h with ⟨p, hp, he⟩
    exact List.mem_map.mpr ⟨p, hp, by simp [he]⟩
  · exact List.mem_append_right _ (List.mem_singleton_self _)

theorem dictInsert_mem_of_ne {m : List (String × Event)} {p : String × Event}
    (hp : p ∈ m) {k : String} (hne : p.1 ≠ k) (v : Event) : p ∈ dictInsert m k v := by
  unfold dictInsert
  split
  · exact List.mem_map.mpr ⟨p, hp, by simp [hne]⟩
  · exact List.mem_append_left _ hp

theorem dictInsert_mem_cases {m : List (String × Event)} {k : String} {v : Event}
    {p : String × Event} (hp : p ∈ dictInsert m k v) : p ∈ m ∨ p = (k, v) := by
  unfold dictInsert at hp
  split at hp
  · rcases List.mem_map.mp hp with ⟨q, hq, he⟩
    by_cases hqk : q.1 = k
    · right
      rw [← he]
      simp [hqk]
    · left
      rw [← he]
      simpa [hqk] using hq
  · rcases List.mem_append.mp hp with h | h
    · exact Or.inl h
    · right
      simpa using h

theorem linked_fetch_loop_error {fetch : String → Except Unit (List String)}
    {l : List (String × String)} (h : ∃ p ∈ l, fetch p.2 = Except.error ()) :
    linked_fetch_loop fetch l = Except.error () := by
  induction l with
  | nil =>
    rcases h with ⟨p, hp, _⟩
    cases hp
  | cons q rest ih =>
    rcases h with ⟨p, hp, he⟩
    simp only [linked_fetch_loop]
    rcases List.mem_cons.mp hp with rfl | hmem
    · rw [he]
    · cases hf : fetch q.2 with
      | error e => cases e; rfl
      | ok rl => rw [ih ⟨p, hmem, he⟩]

theorem linked_fetch_loop_ok_shape {fetch : String → Except Unit (List String)}
    {l : List (String × String)} {evs : List Event}
    (h : linked_fetch_loop fetch l = Except.ok evs) :
    evs.map Event.uid = l.map (fun p => "ksinr:" ++ p.1) ∧
      ∀ ev ∈ evs, ev.source = "sessionnet_detail" := by
  induction l generalizing evs with
  | nil =>
    simp only [linked_fetch_loop, Except.ok.injEq] at h
    subst h
    simp
  | cons q rest ih =>
    simp only [linked_fetch_loop] at h
    cases hf : fetch q.2 with
    | error e => rw [hf] at h; cases h
    | ok rl =>
      rw [hf] at h
      cases hr : linked_fetch_loop fetch rest with
      | error e => rw [hr] at h; cases h
      | ok evs2 =>
        rw [hr] at h
        cases h
        obtain ⟨h1, h2⟩ := ih hr
        refine ⟨by simp [session_detail_event, h1], ?_⟩
        intro ev hev
        rcases List.mem_cons.mp hev with rfl | hm
        · rfl
        · exact h2 ev hm

theorem sendLoop_all_ok {send : String → Bool} {l : List Event}
    (h : ∀ ev ∈ l, send (format_message ev) = true) :
    sendLoop send l = (l.map format_message, true) := by
  induction l with
  | nil => rfl
  | cons e rest ih =>
    simp only [sendLoop, h e (List.mem_cons_self e rest)]
    rw [ih fun x hx => h x (List.mem_cons_of_mem _ hx)]
    simp

theorem sendLoop_fail {send : String → Bool} {l : List Event}
    (h : ∃ ev ∈ l, send (format_message ev) = false) : (sendLoop send l).2 = false := by
  induction l with
  | nil =>
    rcases h with ⟨ev, hm, _⟩
    cases hm
  | cons e rest ih =>
    rcases h with ⟨ev, hm, hf⟩
    simp only [sendLoop]
    rcases List.mem_cons.mp hm with rfl | hm2
    · simp [hf]
    · cases hse : send (format_message e)
      · simp
      · simp only [hse, if_true]
        exact ih ⟨ev, hm2, hf⟩

theorem collect_aux_fst_fresh (hrefs : List String) :
    ∀ seen : List String,
      (((collect_detail_urls_aux seen hrefs).map Prod.fst).Nodup ∧
        ∀ k ∈ (collect_detail_urls_aux seen hrefs).map Prod.fst, k ∉ seen) := by
  induction hrefs with
  | nil => intro seen; simp [collect_detail_urls_aux]
  | cons href rest ih =>
    intro seen
    simp only [collect_detail_urls_aux]
    cases hk : extract_ksinr href with
    | none => exact ih seen
    | some k =>
      cases hmem : seen.contains k with
      | true =>
        simp only [hmem, if_true]
        exact ih seen
      | false =>
        simp only [hmem, Bool.false_eq_true, if_false]
        obtain ⟨hnd, hfresh⟩ := ih (k :: seen)
        have hks : k ∉ seen := by
          intro hin
          have ht : seen.contains k = true := List.elem_iff.mpr hin
          rw [ht] at hmem
          cases hmem
        refine ⟨?_, ?_⟩
        · simp only [List.map_cons, List.nodup_cons]
          refine ⟨fun hkin => (hfresh k hkin) (List.mem_cons_self _ _), hnd⟩
        · intro k2 hk2
          simp only [List.map_cons, List.mem_cons] at hk2
          rcases hk2 with rfl | h2
          · exact hks
          · exact fun hc => (hfresh k2 h2) (List.mem_cons_of_mem _ hc)

theorem string_append_left_inj (s : String) : Function.Injective fun a => s ++ a := by
  intro a b hab
  have hd := congrArg String.data hab
  rw [String.data_append, String.data_append] at hd
  exact String.ext (List.append_cancel_left hd)

theorem ksinr_ne_txt (a b : String) : "ksinr:" ++ a ≠ "txt:" ++ b := by
  intro h
  have hd := congrArg String.data h
  rw [String.data_append, String.data_append] at hd
  rw [show ("ksinr:" : String).data = ['k', 's', 'i', 'n', 'r', ':'] from rfl,
    show ("txt:" : String).data = ['t', 'x', 't', ':'] from rfl] at hd
  simp at hd

theorem parse_linked_ok_shape {hrefs : List String}
    {fetch : String → Except Unit (List String)} {linked : List Event}
    (h : parse_linked_events_from_info hrefs fetch = Except.ok linked) :
    (linked.map Event.uid).Nodup ∧
      ∀ ev ∈ linked, (∃ a, ev.uid = "ksinr:" ++ a) ∧ ev.source = "sessionnet_detail" := by
  obtain ⟨h1, h2⟩ := linked_fetch_loop_ok_shape h
  constructor
  · rw [h1]
    have hnd := (collect_aux_fst_fresh hrefs []).1
    have hmm : (collect_detail_urls hrefs).map (fun p => "ksinr:" ++ p.1)
        = ((collect_detail_urls hrefs).map Prod.fst).map (fun a => "ksinr:" ++ a) := by
      simp [List.map_map]
    rw [hmm]
    exact List.Nodup.map (string_append_left_inj "ksinr:") hnd
  · intro ev hev
    refine ⟨?_, h2 ev hev⟩
    have hm : ev.uid ∈ linked.map Event.uid := List.mem_map_of_mem _ hev
    rw [h1] at hm
    rcases List.mem_map.mp hm with ⟨p, _, he⟩
    exact ⟨p.1, he.symm⟩

theorem text_scan_go_shape (fuel : Nat) (ls : List String) :
    ∀ ev ∈ text_scan_go fuel ls, ∃ d t z o, ev = mk_text_event d t z o := by
  induction fuel, ls using text_scan_go.induct <;> intro ev h <;>
    simp only [text_scan_go] at h <;>
    (try simp only [*, ne_eq, not_not, Bool.false_eq_true, ite_true, ite_false, reduceIte] at h) <;>
    (try simp only [*, ne_eq, not_not, Bool.false_eq_true, ite_true, ite_false, reduceIte] at h)
  all_goals try exact absurd h (List.not_mem_nil _)
  all_goals try solve_by_elim
  all_goals rcases List.mem_cons.mp h with rfl | hm
  all_goals first
    | exact ⟨_, _, _, _, rfl⟩
    | solve_by_elim
    | exact absurd hm (List.not_mem_nil _)

theorem parse_text_shape (rawLines : List String) :
    ∀ ev ∈ parse_text_events_from_info rawLines,
      (∃ a, ev.uid = "txt:" ++ a) ∧ ev.source = "sessionnet_text" := by
  intro ev hev
  unfold parse_text_events_from_info at hev
  dsimp only at hev
  split at hev
  · cases hev
  · rcases text_scan_go_shape _ _ ev hev with ⟨d, t, z, o, rfl⟩
    exact ⟨⟨sha1hex (d ++ "|" ++ pyLower (normalize_ws t) ++ "|" ++
      pyLower (normalize_ws z) ++ "|" ++ pyLower (normalize_ws o)), rfl⟩, rfl⟩

theorem foldl_dictInsert_preserve {t : List Event} {acc : List (String × Event)}
    {p : String × Event} (hp : p ∈ acc) (hne : ∀ e ∈ t, e.uid ≠ p.1) :
    p ∈ t.foldl (fun m e => dictInsert m e.uid e) acc := by
  induction t generalizing acc with
  | nil => exact hp
  | cons e rest ih =>
    simp only [List.foldl_cons]
    exact ih (dictInsert_mem_of_ne hp (Ne.symm (hne e (List.mem_cons_self _ _))) e)
      fun e2 he2 => hne e2 (List.mem_cons_of_mem _ he2)

theorem foldl_dictInsert_mem {l : List Event} (hnd : (l.map Event.uid).Nodup) :
    ∀ acc, ∀ ev ∈ l, (ev.uid, ev) ∈ l.foldl (fun m e => dictInsert m e.uid e) acc := by
  induction l with
  | nil => intro acc ev h; cases h
  | cons e rest ih =>
    intro acc ev hev
    simp only [List.map_cons, List.nodup_cons] at hnd
    simp only [List.foldl_cons]
    rcases List.mem_cons.mp hev with rfl | hm
    · refine foldl_dictInsert_preserve (dictInsert_mem_self acc ev.uid ev) ?_
      intro e2 he2 heq
      refine hnd.1 ?_
      rw [← show e2.uid = ev.uid from heq]
      exact List.mem_map_of_mem Event.uid he2
    · exact ih hnd.2 _ ev hm

theorem foldl_dictInsert_cases {l : List Event} {acc : List (String × Event)}
    {p : String × Event} (hp : p ∈ l.foldl (fun m e => dictInsert m e.uid e) acc) :
    p ∈ acc ∨ ∃ ev ∈ l, p = (ev.uid, ev) := by
  induction l generalizing acc with
  | nil => exact Or.inl hp
  | cons e rest ih =>
    simp only [List.foldl_cons] at hp
    rcases ih hp with h | ⟨ev, hm, rfl⟩
    · rcases dictInsert_mem_cases h with h2 | rfl
      · exact Or.inl h2
      · exact Or.inr ⟨e, List.mem_cons_self _ _, rfl⟩
    · exact Or.inr ⟨ev, List.mem_cons_of_mem _ hm, rfl⟩

theorem foldl_textInsert_preserve {linked : List Event} {t : List Event}
    {acc : List (String × Event)} {p : String × Event} (hp : p ∈ acc)
    (hne : ∀ e ∈ t, sessionnet_sig e ∉ linked_signatures linked → e.uid ≠ p.1) :
    p ∈ t.foldl (fun m e => if sessionnet_sig e ∈ linked_signatures linked then m
      else dictInsert m e.uid e) acc := by
  induction t generalizing acc with
  | nil => exact hp
  | cons e rest ih =>
    simp only [List.foldl_cons]
    by_cases hc : sessionnet_sig e ∈ linked_signatures linked
    · rw [if_pos hc]
      exact ih hp fun e2 he2 => hne e2 (List.mem_cons_of_mem _ he2)
    · rw [if_neg hc]
      exact ih (dictInsert_mem_of_ne hp (Ne.symm (hne e (List.mem_cons_self _ _) hc)) e)
        fun e2 he2 => hne e2 (List.mem_cons_of_mem _ he2)

theorem foldl_textInsert_mem {linked : List Event} {t : List Event}
    (hnd : ((t.filter fun e =>
      decide (sessionnet_sig e ∉ linked_signatures linked)).map Event.uid).Nodup) :
    ∀ acc, ∀ ev ∈ t, sessionnet_sig ev ∉ linked_signatures linked →
      (ev.uid, ev) ∈ t.foldl (fun m e => if sessionnet_sig e ∈ linked_signatures linked then m
        else dictInsert m e.uid e) acc := by
  induction t with
  | nil => intro acc ev h; cases h
  | cons e rest ih =>
    intro acc ev hev hnc
    simp only [List.foldl_cons]
    rcases List.mem_cons.mp hev with rfl | hm
    · rw [if_neg hnc]
      refine foldl_textInsert_preserve (dictInsert_mem_self acc ev.uid ev) ?_
      intro e2 he2 hnc2 heq
      have hfe : (ev :: rest).filter
          (fun x => decide (sessionnet_sig x ∉ linked_signatures linked)) =
          ev :: rest.filter (fun x => decide (sessionnet_sig x ∉ linked_signatures linked)) := by
        simp [List.filter_cons, hnc]
      rw [hfe] at hnd
      simp only [List.map_cons, List.nodup_cons] at hnd
      refine hnd.1 ?_
      rw [← show e2.uid = ev.uid from heq]
      exact List.mem_map_of_mem Event.uid
        (List.mem_filter.mpr ⟨he2, decide_eq_true hnc2⟩)
    · have hnd2 : ((rest.filter fun e =>
          decide (sessionnet_sig e ∉ linked_signatures linked)).map Event.uid).Nodup := by
        by_cases hc2 : sessionnet_sig e ∈ linked_signatures linked
        · simpa [List.filter_cons, hc2] using hnd
        · simp only [List.filter_cons, hc2, not_false_iff, decide_True, if_true,
            List.map_cons, List.nodup_cons] at hnd
          exact hnd.2
      by_cases hc : sessionnet_sig e ∈ linked_signatures linked
      · rw [if_pos hc]
        exact ih hnd2 acc ev hm hnc
      · rw [if_neg hc]
        exact ih hnd2 _ ev hm hnc

theorem foldl_textInsert_cases {linked : List Event} {t : List Event}
    {acc : List (String × Event)} {p : String × Event}
    (hp : p ∈ t.foldl (fun m e => if sessionnet_sig e ∈ linked_signatures linked then m
      else dictInsert m e.uid e) acc) :
    p ∈ acc ∨ ∃ ev ∈ t, sessionnet_sig ev ∉ linked_signatures linked ∧ p = (ev.uid, ev) := by
  induction t generalizing acc with
  | nil => exact Or.inl hp
  | cons e rest ih =>
    simp only [List.foldl_cons] at hp
    rcases ih hp with h | ⟨ev, hm, hs, rfl⟩
    · by_cases hc : sessionnet_sig e ∈ linked_signatures linked
      · rw [if_pos hc] at h
        exact Or.inl h
      · rw [if_neg hc] at h
        rcases dictInsert_mem_cases h with h2 | rfl
        · exact Or.inl h2
        · exact Or.inr ⟨e, List.mem_cons_self _ _, hc, rfl⟩
    · exact Or.inr ⟨ev, List.mem_cons_of_mem _ hm, hs, rfl⟩

/-! # Claim theorems -/

/-- C9: running the text-block extractor on the line sequence
["Aktuelle Sitzungen", "01.02.2026", "Ausschuss X", "18:00 Uhr", "Rathaus",
"Software: v1"] yields exactly one record, with title "Ausschuss X", date
"01.02.2026", time "18:00 Uhr", and location "Rathaus". -/
theorem c9_scenario_a :
    (parse_text_events_from_info c9_lines).length = 1 ∧
      (parse_text_events_from_info c9_lines).map Event.title = ["Ausschuss X"] ∧
      (parse_text_events_from_info c9_lines).map Event.datum = ["01.02.2026"] ∧
      (parse_text_events_from_info c9_lines).map Event.zeit = ["18:00 Uhr"] ∧
      (parse_text_events_from_info c9_lines).map Event.ort = ["Rathaus"] := by
  refine ⟨?_, ?_, ?_, ?_, ?_⟩ <;> decide

/-- C1 counterexample: two external-site records extracted from the same
permalink url differ in title, date and time, yet receive the same uid — the
uid is not a hash over the semantic fields, so differing titles (or dates, or
times) do not give different uids. -/
theorem c1_counterexample :
    (parse_witz_event_detail c1_url c1_pageA).title ≠ (parse_witz_event_detail c1_url c1_pageB).title ∧
      (parse_witz_event_detail c1_url c1_pageA).datum ≠ (parse_witz_event_detail c1_url c1_pageB).datum ∧
      (parse_witz_event_detail c1_url c1_pageA).zeit ≠ (parse_witz_event_detail c1_url c1_pageB).zeit ∧
      (parse_witz_event_detail c1_url c1_pageA).uid = (parse_witz_event_detail c1_url c1_pageB).uid :=
  ⟨by decide, by decide, by decide, rfl⟩

/-- C1 amended: for every external-site event record the uid is the sha-1 hash
of only the slash-normalized url (prefix "wz"); records from the same url get
identical uids regardless of their title, date, time and location fields. -/
theorem c1_uid_hashes_only_url (url : String) (pgA pgB : WitzPage) :
    (parse_witz_event_detail url pgA).uid = sha_uid "wz" (rstrip_slash url ++ "/") ∧
      (parse_witz_event_detail url pgA).uid = (parse_witz_event_detail url pgB).uid :=
  ⟨rfl, rfl⟩

/-- C2 counterexample: for a permalink page whose only event data is an
embedded structured event object with startDate 2026-03-10T19:00:00 and
endDate 2026-03-10T21:00:00, the extracted record does not have date
"10.03.2026" and time "19:00 bis 21:00 Uhr" — the structured object is not
used. -/
theorem c2_counterexample :
    ¬ ((parse_witz_event_detail c2_url c2_page).datum = "10.03.2026" ∧
       (parse_witz_event_detail c2_url c2_page).zeit = "19:00 bis 21:00 Uhr") := by
  decide

/-- C2 amended: per-page extraction never consults an embedded structured
event object; only the heuristic text scan runs, so on any page whose
flattened text has no "HH:MM Uhr" time line (in particular one whose only
date/time data sits inside a structured JSON payload) the record has empty
date, time and location. -/
theorem c2_no_structured_extraction (url : String) (pg : WitzPage)
    (h : find_time_aux 0 (witz_lines pg) = none) :
    (parse_witz_event_detail url pg).datum = "" ∧
      (parse_witz_event_detail url pg).zeit = "" ∧
      (parse_witz_event_detail url pg).ort = "" := by
  unfold parse_witz_event_detail
  simp [h]

/-- C2 witness: the structured-object page of the counterexample satisfies the
no-time-line hypothesis, and extraction yields empty date/time/location. -/
theorem c2_witness :
    find_time_aux 0 (witz_lines c2_page) = none ∧
      (parse_witz_event_detail c2_url c2_page).datum = "" ∧
      (parse_witz_event_detail c2_url c2_page).zeit = "" ∧
      (parse_witz_event_detail c2_url c2_page).ort = "" := by
  have h : find_time_aux 0 (witz_lines c2_page) = none := by decide
  exact ⟨h, c2_no_structured_extraction c2_url c2_page h⟩

/-- C4: on a bootstrap run (persisted seen-set empty, override flag false) the
run sends nothing and commits exactly the set of currently observed uids. -/
theorem c4_bootstrap (inp : RunInput) (linked : List Event)
    (hok : parse_linked_events_from_info inp.infoHrefs inp.detailFetch = Except.ok linked)
    (hempty : inp.posted = ∅) (hflag : inp.postExisting = false) :
    (run inp).sent = [] ∧ (run inp).saved = some (run_current_uids inp linked) := by
  unfold run
  rw [hok]
  have hfirst : run_first inp = true := by
    unfold run_first
    rw [hempty]
    simp
  rw [hfirst, hflag]
  simp

/-- C4 witness: a concrete bootstrap input (no state file, empty seen-set,
override off) delivers nothing and commits the observed set. -/
theorem c4_witness :
    c4_inp.posted = ∅ ∧ c4_inp.postExisting = false ∧
      (run c4_inp).sent = [] ∧ (run c4_inp).saved = some (run_current_uids c4_inp []) :=
  ⟨rfl, rfl, c4_bootstrap c4_inp [] rfl rfl rfl⟩

theorem witz_new_events_shape {urls : List String} {posted : Finset String}
    {fetch : String → Except Unit WitzPage} :
    ∀ ev ∈ (parse_witz_events urls posted fetch).2,
      ∃ u ∈ witz_new_urls urls posted, ev.uid = wz_uid u ∧ u ∈ urls ∧ wz_uid u ∉ posted := by
  intro ev hev
  simp only [parse_witz_events] at hev
  rcases List.mem_filterMap.mp hev with ⟨u, hu, he⟩
  have hu2 : u ∈ witz_new_urls urls posted := List.take_subset _ _ hu
  refine ⟨u, hu2, ?_, List.mem_of_mem_filter hu2, ?_⟩
  · cases hf : fetch u with
    | error e => rw [hf] at he; cases he
    | ok pg =>
      rw [hf] at he
      cases he
      rfl
  · have hu3 : u ∈ urls.filter fun v => decide (wz_uid v ∉ posted) := hu2
    exact of_decide_eq_true (List.mem_filter.mp hu3).2

/-- C3 counterexample: with two SessionNet detail pages of which the first
fetches fine and the second raises, the linked extractor does not return the
record it already collected — the error propagates out of it. -/
theorem c3_counterexample :
    c3_fetch c3_url1 = Except.ok ["Gremium", "Stadtrat"] ∧
      c3_fetch c3_url2 = Except.error () ∧
      parse_linked_events_from_info c3_hrefs c3_fetch = Except.error () :=
  ⟨rfl, rfl, rfl⟩

/-- C3 amended: a fetch failure on a single external permalink page drops only
that page's record — every successfully fetched page among the first 60 new
urls still contributes its record — but a fetch failure on a SessionNet detail
page propagates out of the linked extractor, and a run whose linked extraction
raises delivers nothing and commits nothing (both sources are aborted). -/
theorem c3_failure_scopes (urls : List String) (posted : Finset String)
    (wfetch : String → Except Unit WitzPage)
    (hrefs : List String) (dfetch : String → Except Unit (List String)) :
    (∀ u ∈ (witz_new_urls urls posted).take 60, ∀ pg, wfetch u = Except.ok pg →
        parse_witz_event_detail u pg ∈ (parse_witz_events urls posted wfetch).2) ∧
      ((∃ p ∈ collect_detail_urls hrefs, dfetch p.2 = Except.error ()) →
        parse_linked_events_from_info hrefs dfetch = Except.error ()) ∧
      (∀ inp : RunInput,
        parse_linked_events_from_info inp.infoHrefs inp.detailFetch = Except.error () →
          (run inp).sent = [] ∧ (run inp).saved = none) := by
  refine ⟨?_, ?_, ?_⟩
  · intro u hu pg hpg
    simp only [parse_witz_events]
    refine List.mem_filterMap.mpr ⟨u, hu, ?_⟩
    rw [hpg]
  · intro h
    exact linked_fetch_loop_error h
  · intro inp h
    unfold run
    rw [h]
    exact ⟨rfl, rfl⟩

/-- C3 witness: a successfully fetched permalink page contributes its record
even though the fetcher fails elsewhere; the concrete failing detail fetch of
the counterexample propagates; and the run built on it aborts outright. -/
theorem c3_witness :
    parse_witz_event_detail c1_url c1_pageA ∈
        (parse_witz_events [c1_url] ∅ c3_inp.witzFetch).2 ∧
      parse_linked_events_from_info c3_hrefs c3_fetch = Except.error () ∧
      (run c3_inp).sent = [] ∧ (run c3_inp).saved = none := by
  have h := c3_failure_scopes [c1_url] ∅ c3_inp.witzFetch c3_hrefs c3_fetch
  refine ⟨h.1 c1_url (by decide) c1_pageA rfl, ?_, ?_⟩
  · exact h.2.1 ⟨("102", c3_url2), by decide, rfl⟩
  · exact h.2.2 c3_inp (h.2.1 ⟨("102", c3_url2), by decide, rfl⟩)

/-- C6: when delivery failures are fatal (an uncaught tg_send error aborts the
run) and sending one of the new events fails, the seen-set commit never
happens — the persisted state stays exactly as before the run, so the next run
re-attempts all new events. -/
theorem c6_delivery_failure_no_commit (inp : RunInput) (linked : List Event)
    (hok : parse_linked_events_from_info inp.infoHrefs inp.detailFetch = Except.ok linked)
    (hboot : (run_first inp && !inp.postExisting) = false)
    (hfail : ∃ ev ∈ run_to_post inp linked, inp.send (format_message ev) = false) :
    (run inp).saved = none := by
  unfold run
  rw [hok]
  dsimp only
  rw [hboot]
  simp only [Bool.false_eq_true, if_false]
  have h2 := sendLoop_fail hfail
  simp [h2]

/-- C6 witness: three new sessions; the second message fails to send; the
committed state is none. -/
theorem c6_witness :
    (run_first c6_inp && !c6_inp.postExisting) = false ∧
      c6_inp.send (format_message (session_detail_event c6_page2 c6_url2 "202")) = false ∧
      session_detail_event c6_page2 c6_url2 "202" ∈ run_to_post c6_inp c6_linked ∧
      (run c6_inp).saved = none := by
  refine ⟨by decide, by decide, by decide, ?_⟩
  exact c6_delivery_failure_no_commit c6_inp c6_linked rfl (by decide)
    ⟨session_detail_event c6_page2 c6_url2 "202", by decide, by decide⟩

/-- C7: a completed non-bootstrap run commits exactly the previous seen-set
united with every currently observed uid (the uids of delivered events are all
among the observed ones), and no delivered event had a uid already in the
seen-set — so a uid once committed is never delivered again. -/
theorem c7_commit_union (inp : RunInput) (linked : List Event)
    (hok : parse_linked_events_from_info inp.infoHrefs inp.detailFetch = Except.ok linked)
    (hfirst : run_first inp = false)
    (hsend : ∀ ev ∈ run_to_post inp linked, inp.send (format_message ev) = true) :
    (run inp).saved = some (inp.posted ∪ run_current_uids inp linked) ∧
      ∀ ev ∈ run_to_post inp linked, ev.uid ∉ inp.posted := by
  have hmem : ∀ ev ∈ run_to_post inp linked,
      ev ∈ (run_sessionnet_events inp linked).filter
        (fun e => decide (e.uid ∉ inp.posted)) ++ (run_witz inp).2 := by
    intro ev hev
    have hev2 : ev ∈ pySorted event_lt ((run_sessionnet_events inp linked).filter
        (fun e => decide (e.uid ∉ inp.posted)) ++ (run_witz inp).2) := hev
    exact mem_pySorted.mp hev2
  have hsub : ∀ ev ∈ run_to_post inp linked, ev.uid ∈ run_current_uids inp linked := by
    intro ev hev
    rcases List.mem_append.mp (hmem ev hev) with h | h
    · have h3 : ev ∈ run_sessionnet_events inp linked := List.mem_of_mem_filter h
      exact Finset.mem_union_left _ (List.mem_toFinset.mpr (List.mem_map_of_mem Event.uid h3))
    · rcases witz_new_events_shape ev h with ⟨u, _, huid, hurls, _⟩
      refine Finset.mem_union_right _ ?_
      rw [huid]
      show wz_uid u ∈ (inp.witzUrls.map wz_uid).toFinset
      exact List.mem_toFinset.mpr (List.mem_map_of_mem wz_uid hurls)
  constructor
  · unfold run
    rw [hok]
    dsimp only
    rw [hfirst]
    simp only [Bool.false_and, Bool.false_eq_true, if_false]
    rw [sendLoop_all_ok hsend]
    have hTC : ((run_to_post inp linked).map Event.uid).toFinset ⊆
        run_current_uids inp linked := by
      intro x hx
      rcases List.mem_map.mp (List.mem_toFinset.mp hx) with ⟨ev, hev, rfl⟩
      exact hsub ev hev
    have hU : (inp.posted ∪ ((run_to_post inp linked).map Event.uid).toFinset) ∪
        run_current_uids inp linked = inp.posted ∪ run_current_uids inp linked := by
      rw [Finset.union_assoc, Finset.union_eq_right.mpr hTC]
    simp [hU]
  · intro ev hev
    rcases List.mem_append.mp (hmem ev hev) with h | h
    · exact of_decide_eq_true (List.mem_filter.mp h).2
    · rcases witz_new_events_shape ev h with ⟨u, _, huid, _, hnp⟩
      rw [huid]
      exact hnp

/-- C7 witness: a concrete non-bootstrap run with two new sessions and fully
successful delivery commits old state ∪ observed uids, and no delivered uid
was previously seen. -/
theorem c7_witness :
    run_first c7_inp = false ∧
      (run c7_inp).saved = some (c7_inp.posted ∪ run_current_uids c7_inp c7_linked) ∧
      ∀ ev ∈ run_to_post c7_inp c7_linked, ev.uid ∉ c7_inp.posted := by
  refine ⟨by decide, ?_⟩
  exact c7_commit_union c7_inp c7_linked rfl (by decide) (by intro ev _; rfl)

/-- C10: when more than 60 unseen external urls are discovered, at most 60
events are fetched and delivered and each comes from the first 60 unseen urls
in the discovery list, yet the uids of all discovered urls (including the
excess, which is non-empty) are in the observed current set the run commits;
any url whose uid is committed is excluded from the new-url list of every
later run, so the excess events are never delivered. -/
theorem c10_excess_never_delivered (urls : List String) (posted posted2 : Finset String)
    (fetch : String → Except Unit WitzPage)
    (h60 : 60 < (witz_new_urls urls posted).length) :
    (witz_new_urls urls posted).drop 60 ≠ [] ∧
      (parse_witz_events urls posted fetch).2.length ≤ 60 ∧
      (∀ ev ∈ (parse_witz_events urls posted fetch).2,
        ∃ u ∈ (witz_new_urls urls posted).take 60, ev.uid = wz_uid u) ∧
      (∀ u ∈ witz_new_urls urls posted, wz_uid u ∈ (parse_witz_events urls posted fetch).1) ∧
      (∀ u, wz_uid u ∈ posted2 → u ∉ witz_new_urls urls posted2) := by
  refine ⟨?_, ?_, ?_, ?_, ?_⟩
  · intro hnil
    have := congrArg List.length hnil
    rw [List.length_drop] at this
    simp at this
    omega
  · have h1 : (parse_witz_events urls posted fetch).2.length ≤
        ((witz_new_urls urls posted).take 60).length := by
      show (List.filterMap _ _).length ≤ _
      exact List.length_filterMap_le _ _
    have h2 : ((witz_new_urls urls posted).take 60).length ≤ 60 := by
      rw [List.length_take]
      omega
    omega
  · intro ev hev
    simp only [parse_witz_events] at hev
    rcases List.mem_filterMap.mp hev with ⟨u, hu, he⟩
    refine ⟨u, hu, ?_⟩
    cases hf : fetch u with
    | error e => rw [hf] at he; cases he
    | ok pg =>
      rw [hf] at he
      cases he
      rfl
  · intro u hu
    have hurls : u ∈ urls := List.mem_of_mem_filter hu
    show wz_uid u ∈ (urls.map wz_uid).toFinset
    exact List.mem_toFinset.mpr (List.mem_map_of_mem wz_uid hurls)
  · intro u hin hmem
    have hmem2 : u ∈ urls.filter fun v => decide (wz_uid v ∉ posted2) := hmem
    exact of_decide_eq_true (List.mem_filter.mp hmem2).2 hin

/-- C10 witness: 61 discovered unseen urls; at most 60 records are produced,
the excess is non-empty, and every excess uid is in the committed observed
set. -/
theorem c10_witness :
    60 < (witz_new_urls c10_urls ∅).length ∧
      (parse_witz_events c10_urls ∅ c10_fetch).2.length ≤ 60 ∧
      (witz_new_urls c10_urls ∅).drop 60 ≠ [] := by
  have h60 : 60 < (witz_new_urls c10_urls ∅).length := by decide
  have h := c10_excess_never_delivered c10_urls ∅ ∅ c10_fetch h60
  exact ⟨h60, h.2.1, h.1⟩

theorem merged_same_uid_pair (e1 e2 : Event) (huid : e1.uid = e2.uid) :
    merged_sessionnet [] [e1, e2] = [e2] := by
  unfold merged_sessionnet merge_events
  simp [linked_signatures, dictInsert, huid]

/-- C5 counterexample: the text extractor produces two records with titles
"ABC" and "abc" on the same date/time/location; neither collides with any
detail-linked signature (there are none), yet the first record is dropped by
the merge because both hash to the same uid and the uid-keyed dict keeps only
the later one. -/
theorem c5_counterexample :
    parse_text_events_from_info c5_lines = [c5_evA, c5_evB] ∧
      sessionnet_sig c5_evA ∉ linked_signatures [] ∧
      c5_evA ∉ merged_sessionnet [] (parse_text_events_from_info c5_lines) := by
  have hlist : parse_text_events_from_info c5_lines = [c5_evA, c5_evB] := rfl
  have huid : c5_evA.uid = c5_evB.uid := by
    show "txt:" ++ sha1hex ("01.02.2026" ++ "|" ++ pyLower (normalize_ws "ABC") ++ "|" ++
        pyLower (normalize_ws "18:00 Uhr") ++ "|" ++ pyLower (normalize_ws "Rathaus")) =
      "txt:" ++ sha1hex ("01.02.2026" ++ "|" ++ pyLower (normalize_ws "abc") ++ "|" ++
        pyLower (normalize_ws "18:00 Uhr") ++ "|" ++ pyLower (normalize_ws "Rathaus"))
    rw [show pyLower (normalize_ws "ABC") = pyLower (normalize_ws "abc") from by decide]
  refine ⟨hlist, by simp [linked_signatures], ?_⟩
  rw [hlist, merged_same_uid_pair c5_evA c5_evB huid]
  intro hmem
  have ht := congrArg Event.title (List.mem_singleton.mp hmem)
  exact absurd ht (by decide)

/-- C5 amended: the merge keeps every detail-linked record and drops every
text-derived record whose (date, lowercased title) signature matches a
detail-linked one; it keeps the non-colliding text-derived records provided no
two of them share a uid (text records whose hashed fields coincide — e.g.
titles differing only in case — collapse to the last one, because the merged
dict is keyed by uid). -/
theorem c5_merge_precedence (hrefs : List String)
    (dfetch : String → Except Unit (List String)) (rawLines : List String)
    (linked : List Event)
    (hok : parse_linked_events_from_info hrefs dfetch = Except.ok linked) :
    (∀ ev ∈ linked, ev ∈ merged_sessionnet linked (parse_text_events_from_info rawLines)) ∧
      (∀ ev ∈ parse_text_events_from_info rawLines,
        sessionnet_sig ev ∈ linked_signatures linked →
          ev ∉ merged_sessionnet linked (parse_text_events_from_info rawLines)) ∧
      ((((parse_text_events_from_info rawLines).filter fun e =>
            decide (sessionnet_sig e ∉ linked_signatures linked)).map Event.uid).Nodup →
        ∀ ev ∈ parse_text_events_from_info rawLines,
          sessionnet_sig ev ∉ linked_signatures linked →
            ev ∈ merged_sessionnet linked (parse_text_events_from_info rawLines)) := by
  obtain ⟨hnd, hshape⟩ := parse_linked_ok_shape hok
  refine ⟨?_, ?_, ?_⟩
  · intro ev hev
    refine List.mem_map.mpr ⟨(ev.uid, ev), ?_, rfl⟩
    unfold merge_events
    refine foldl_textInsert_preserve (foldl_dictInsert_mem hnd [] ev hev) ?_
    intro e2 he2 _ heq
    rcases (parse_text_shape rawLines e2 he2).1 with ⟨b, hb⟩
    rcases (hshape ev hev).1 with ⟨a, ha⟩
    refine ksinr_ne_txt a b ?_
    rw [← ha, show ev.uid = e2.uid from heq.symm]
    exact hb
  · intro ev hev hcol hmem
    rcases List.mem_map.mp hmem with ⟨p, hp, hpe⟩
    unfold merge_events at hp
    rcases foldl_textInsert_cases hp with h | ⟨tv, _, hnc, rfl⟩
    · rcases foldl_dictInsert_cases h with h2 | ⟨lv, hlv, rfl⟩
      · cases h2
      · have hsrc1 : ev.source = "sessionnet_text" := (parse_text_shape rawLines ev hev).2
        have hsrc2 : lv.source = "sessionnet_detail" := (hshape lv hlv).2
        rw [show lv = ev from hpe] at hsrc2
        rw [hsrc1] at hsrc2
        exact absurd hsrc2 (by decide)
    · have : tv = ev := hpe
      rw [this] at hnc
      exact hnc hcol
  · intro hnod ev hev hnc
    refine List.mem_map.mpr ⟨(ev.uid, ev), ?_, rfl⟩
    unfold merge_events
    exact foldl_textInsert_mem hnod _ ev hev hnc

/-- C5 witness: with no detail-linked records and a single text record, the
hypotheses hold and the non-colliding text record is kept by the merge. -/
theorem c5_witness :
    c5w_ev ∈ merged_sessionnet [] (parse_text_events_from_info c5w_lines) := by
  have hok : parse_linked_events_from_info [] (fun _ => Except.error ()) = Except.ok [] := rfl
  have h := (c5_merge_precedence [] (fun _ => Except.error ()) c5w_lines [] hok).2.2
  have hlist : parse_text_events_from_info c5w_lines = [c5w_ev] := rfl
  refine h ?_ c5w_ev ?_ ?_
  · rw [hlist]
    decide
  · rw [hlist]
    exact List.mem_singleton_self _
  · simp [linked_signatures]

theorem char_eq_of_toNat_eq {a b : Char} (h : a.toNat = b.toNat) : a = b :=
  Char.ext (UInt32.ext h)

theorem char_lt_iff_toNat (a b : Char) : a < b ↔ a.toNat < b.toNat := Iff.rfl

theorem isDigit_toNat {c : Char} (h : c.isDigit = true) : 48 ≤ c.toNat ∧ c.toNat ≤ 57 := by
  simp [Char.isDigit] at h
  exact ⟨h.1, h.2⟩

theorem lex_append_right (l : List Char) {r r2 : List Char}
    (h : List.Lex (· < ·) r r2) : List.Lex (· < ·) (l ++ r) (l ++ r2) := by
  induction l with
  | nil => exact h
  | cons c t ih => exact List.Lex.cons ih

theorem lex_append_left : ∀ {l1 l2 : List Char}, l1.length = l2.length →
    List.Lex (· < ·) l1 l2 → ∀ (r r2 : List Char), List.Lex (· < ·) (l1 ++ r) (l2 ++ r2) := by
  intro l1
  induction l1 with
  | nil =>
    intro l2 hlen hlt r r2
    cases l2 with
    | nil => cases hlt
    | cons b bs => cases hlen
  | cons a t ih =>
    intro l2 hlen hlt r r2
    cases l2 with
    | nil => cases hlen
    | cons b bs =>
      cases hlt with
      | rel hab => exact List.Lex.rel hab
      | cons htl =>
        exact List.Lex.cons (ih (by simpa using hlen) htl r r2)

theorem digitChar_toNat {n : Nat} (h : n ≤ 9) : (digitChar n).toNat = 48 + n := by
  interval_cases n <;> decide

theorem digitChar_lt {a b : Nat} (hab : a < b) (hb : b ≤ 9) : digitChar a < digitChar b := by
  rw [char_lt_iff_toNat, digitChar_toNat (by omega), digitChar_toNat hb]
  omega

theorem pad2_lt {a b : Nat} (hab : a < b) (hb : b ≤ 99) :
    List.Lex (· < ·) (pad2 a) (pad2 b) := by
  unfold pad2
  by_cases hd : a / 10 < b / 10
  · exact List.Lex.rel (digitChar_lt hd (by omega))
  · have hde : a / 10 = b / 10 := by omega
    rw [hde]
    have hm : a % 10 < b % 10 := by omega
    exact List.Lex.cons (List.Lex.rel (digitChar_lt hm (by omega)))

theorem pad4_lt {a b : Nat} (hab : a < b) (hb : b ≤ 9999) :
    List.Lex (· < ·) (pad4 a) (pad4 b) := by
  unfold pad4
  by_cases hd : a / 100 < b / 100
  · exact lex_append_left (by rfl) (pad2_lt hd (by omega)) _ _
  · have hde : a / 100 = b / 100 := by omega
    rw [hde]
    exact lex_append_right _ (pad2_lt (by omega) (by omega))

theorem iso_lt {y1 m1 d1 y2 m2 d2 : Nat}
    (hy2 : y2 ≤ 9999) (hm1 : m1 ≤ 99) (hm2 : m2 ≤ 99) (hd2 : d2 ≤ 99)
    (hlt : y1 < y2 ∨ (y1 = y2 ∧ (m1 < m2 ∨ (m1 = m2 ∧ d1 < d2)))) :
    pyStrLt (date_isoformat (y1, m1, d1)) (date_isoformat (y2, m2, d2)) := by
  show List.Lex (· < ·) (date_isoformat (y1, m1, d1)).data (date_isoformat (y2, m2, d2)).data
  unfold date_isoformat
  dsimp only
  rcases hlt with hy | ⟨rfl, hm | ⟨rfl, hd⟩⟩
  · exact lex_append_left (by rfl) (pad4_lt hy hy2) _ _
  · refine lex_append_right (pad4 y1) ?_
    exact List.Lex.cons (lex_append_left (by rfl) (pad2_lt hm hm2) _ _)
  · refine lex_append_right (pad4 y1) ?_
    refine List.Lex.cons ?_
    refine lex_append_right (pad2 m1) ?_
    exact List.Lex.cons (pad2_lt hd hd2)

theorem isDigit_iff (c : Char) : c.isDigit = true ↔ 48 ≤ c.toNat ∧ c.toNat ≤ 57 := by
  constructor
  · exact fun h => isDigit_toNat h
  · intro h
    have h2 : 48 ≤ c.val ∧ c.val ≤ 57 := h
    simp [Char.isDigit]
    exact h2

theorem parse_day_bounds {cs : List Char} {d : Nat} {r : List Char}
    (h : parse_day cs = some (d, r)) : 1 ≤ d ∧ d ≤ 31 := by
  unfold parse_day at h
  repeat' split at h
  all_goals (
    cases h
    all_goals try simp only [Bool.or_eq_true, Bool.and_eq_true, decide_eq_true_eq,
      isDigit_iff] at *
    all_goals try rcases ‹_ ∨ _› with rfl | rfl
    all_goals (
      try simp only [digitVal]
      have e0 : ('0' : Char).toNat = 48 := rfl
      have e1 : ('1' : Char).toNat = 49 := rfl
      have e2 : ('2' : Char).toNat = 50 := rfl
      have e3 : ('3' : Char).toNat = 51 := rfl
      omega))

theorem parse_month_bounds {cs : List Char} {m : Nat} {r : List Char}
    (h : parse_month cs = some (m, r)) : 1 ≤ m ∧ m ≤ 12 := by
  unfold parse_month at h
  repeat' split at h
  all_goals (
    cases h
    all_goals try simp only [Bool.or_eq_true, Bool.and_eq_true, decide_eq_true_eq,
      isDigit_iff] at *
    all_goals try rcases ‹_ ∨ _› with (rfl | rfl) | rfl
    all_goals try rcases ‹_ ∨ _› with rfl | rfl
    all_goals (
      try simp only [digitVal]
      have e0 : ('0' : Char).toNat = 48 := rfl
      have e1 : ('1' : Char).toNat = 49 := rfl
      have e2 : ('2' : Char).toNat = 50 := rfl
      omega))

theorem parse_year4_bounds {cs : List Char} {y : Nat} {r : List Char}
    (h : parse_year4 cs = some (y, r)) : y ≤ 9999 := by
  unfold parse_year4 at h
  repeat' split at h
  all_goals (
    cases h
    all_goals try simp only [Bool.and_eq_true, isDigit_iff] at *
    all_goals (
      try simp only [digitVal]
      omega))

theorem parse_dmy_bounds {cs : List Char} {d m y : Nat}
    (h : parse_dmy cs = some (d, m, y)) :
    1 ≤ d ∧ d ≤ 31 ∧ 1 ≤ m ∧ m ≤ 12 ∧ y ≤ 9999 := by
  unfold parse_dmy at h
  repeat' split at h
  all_goals cases h
  all_goals (
    obtain ⟨hd1, hd2⟩ := parse_day_bounds (by assumption)
    obtain ⟨hm1, hm2⟩ := parse_month_bounds (by assumption)
    have hy := parse_year4_bounds (by assumption)
    exact ⟨hd1, hd2, hm1, hm2, hy⟩)

theorem parse_date_bounds {s : String} {y m d : Nat}
    (h : parse_date s = some (y, m, d)) :
    1 ≤ y ∧ y ≤ 9999 ∧ 1 ≤ m ∧ m ≤ 12 ∧ 1 ≤ d ∧ d ≤ 31 := by
  unfold parse_date at h
  cases hdmy : parse_dmy s.data with
  | none => rw [hdmy] at h; cases h
  | some t =>
    rw [hdmy] at h
    obtain ⟨d0, m0, y0⟩ := t
    dsimp only at h
    by_cases hcond : 1 ≤ y0 ∧ d0 ≤ days_in_month y0 m0
    · rw [if_pos hcond] at h
      cases h
      obtain ⟨q1, q2, q3, q4, q5⟩ := parse_dmy_bounds hdmy
      exact ⟨hcond.1, q5, q3, q4, q1, q2⟩
    · rw [if_neg hcond] at h
      cases h

theorem ftt_scan_shape : ∀ (cs t : List Char), ftt_scan cs = some t →
    (∃ a b c d, t = [a, b, ':', c, d] ∧ a.isDigit = true ∧ b.isDigit = true ∧
      c.isDigit = true ∧ d.isDigit = true) ∨
    (∃ a c d, t = [a, ':', c, d] ∧ a.isDigit = true ∧ c.isDigit = true ∧ d.isDigit = true) := by
  intro cs
  induction cs using ftt_scan.induct <;> intro t h <;>
    simp only [ftt_scan] at h <;>
    (try simp only [*, ite_true, ite_false, Bool.false_eq_true, reduceIte] at h) <;>
    (try simp only [*, ite_true, ite_false, Bool.false_eq_true, reduceIte] at h)
  all_goals try solve_by_elim
  all_goals (
    cases h
    all_goals (
      simp only [Bool.and_eq_true, beq_iff_eq] at *
      first
      | (rcases ‹_ ∧ _› with ⟨⟨⟨⟨h1, h2⟩, rfl⟩, h3⟩, h4⟩
         exact Or.inl ⟨_, _, _, _, rfl, h1, h2, h3, h4⟩)
      | (rcases ‹_ ∧ _› with ⟨⟨⟨h1, rfl⟩, h2⟩, h3⟩
         exact Or.inr ⟨_, _, _, rfl, h1, h2, h3⟩)))

theorem five_token_lt_sentinel {a b c d : Char}
    (ha : a.isDigit = true) (hb : b.isDigit = true) (hc : c.isDigit = true)
    (hd : d.isDigit = true)
    (hne : ([a, b, ':', c, d] : List Char) ≠ ['9', '9', ':', '9', '9']) :
    List.Lex (· < ·) [a, b, ':', c, d] ['9', '9', ':', '9', '9'] := by
  have e9 : ('9' : Char).toNat = 57 := rfl
  obtain ⟨ha1, ha2⟩ := isDigit_toNat ha
  obtain ⟨hb1, hb2⟩ := isDigit_toNat hb
  obtain ⟨hc1, hc2⟩ := isDigit_toNat hc
  obtain ⟨hd1, hd2⟩ := isDigit_toNat hd
  by_cases h9a : a = '9'
  · subst h9a
    by_cases h9b : b = '9'
    · subst h9b
      by_cases h9c : c = '9'
      · subst h9c
        by_cases h9d : d = '9'
        · subst h9d
          exact absurd rfl hne
        · refine List.Lex.cons (List.Lex.cons (List.Lex.cons (List.Lex.cons (List.Lex.rel ?_))))
          rw [char_lt_iff_toNat]
          have hne57 : d.toNat ≠ 57 := fun he => h9d (char_eq_of_toNat_eq (he.trans e9.symm))
          omega
      · refine List.Lex.cons (List.Lex.cons (List.Lex.cons (List.Lex.rel ?_)))
        rw [char_lt_iff_toNat]
        have hne57 : c.toNat ≠ 57 := fun he => h9c (char_eq_of_toNat_eq (he.trans e9.symm))
        omega
    · refine List.Lex.cons (List.Lex.rel ?_)
      rw [char_lt_iff_toNat]
      have hne57 : b.toNat ≠ 57 := fun he => h9b (char_eq_of_toNat_eq (he.trans e9.symm))
      omega
  · refine List.Lex.rel ?_
    rw [char_lt_iff_toNat]
    have hne57 : a.toNat ≠ 57 := fun he => h9a (char_eq_of_toNat_eq (he.trans e9.symm))
    omega

/-- C8 counterexample: both events are on 05.01.2026 and have the same title,
but the timed one carries the single-digit-hour token "9:30", and since ':'
(58) is greater than '9' (57) the sentinel "99:99" compares BELOW "9:30" in
code-point order, so the untimed event sorts strictly BEFORE the timed one,
contradicting the claim that an untimed event sorts after any timed one within
its day. -/
theorem c8_counterexample :
    first_time_token (normalize_ws c8_timed.zeit) = "9:30" ∧
    first_time_token (normalize_ws c8_untimed.zeit) = "99:99" ∧
    c8_timed.datum = c8_untimed.datum ∧
    keyLt (event_sort_key c8_untimed) (event_sort_key c8_timed) ∧
    ¬ keyLt (event_sort_key c8_timed) (event_sort_key c8_untimed) := by
  refine ⟨by decide, by decide, rfl, by decide, by decide⟩

/-- C8 (amended): the sort key orders records (a) ascending by parsed calendar
date; (b) parsable dates other than 31.12.9999 before unparsable ones (an
unparsable date gets the sentinel maximum 9999-12-31, which a parsed
31.12.9999 ties); (c) within one day, an event whose time field contains a
two-digit-hour HH:MM token other than "99:99" before an untimed event — but
NOT for single-digit-hour tokens "9:MM", which sort after the sentinel
"99:99" in code-point order; (d) ties broken by lowercased title; and (e) in
particular the event on 05.01.2026 at "09:00 Uhr" sorts before the untimed
event on 05.01.2026. -/
theorem c8_sort_key_order :
    (∀ e1 e2 : Event, ∀ y1 m1 d1 y2 m2 d2 : Nat,
      parse_date (normalize_ws e1.datum) = some (y1, m1, d1) →
      parse_date (normalize_ws e2.datum) = some (y2, m2, d2) →
      (y1 < y2 ∨ (y1 = y2 ∧ (m1 < m2 ∨ (m1 = m2 ∧ d1 < d2)))) →
      keyLt (event_sort_key e1) (event_sort_key e2)) ∧
    (∀ e1 e2 : Event, ∀ y1 m1 d1 : Nat,
      parse_date (normalize_ws e1.datum) = some (y1, m1, d1) →
      parse_date (normalize_ws e2.datum) = none →
      (y1, m1, d1) ≠ datetime_max_date →
      keyLt (event_sort_key e1) (event_sort_key e2)) ∧
    (∀ e1 e2 : Event, ∀ t : List Char,
      (event_sort_key e1).1 = (event_sort_key e2).1 →
      ftt_scan (normalize_ws e1.zeit).data = some t →
      t.length = 5 → t ≠ ['9', '9', ':', '9', '9'] →
      ftt_scan (normalize_ws e2.zeit).data = none →
      keyLt (event_sort_key e1) (event_sort_key e2)) ∧
    (∀ e1 e2 : Event,
      (event_sort_key e1).1 = (event_sort_key e2).1 →
      (event_sort_key e1).2.1 = (event_sort_key e2).2.1 →
      pyStrLt (pyLower (normalize_ws e1.title)) (pyLower (normalize_ws e2.title)) →
      keyLt (event_sort_key e1) (event_sort_key e2)) ∧
    keyLt (event_sort_key c8_t0900) (event_sort_key c8_untimed) := by
  refine ⟨?_, ?_, ?_, ?_, by decide⟩
  · intro e1 e2 y1 m1 d1 y2 m2 d2 h1 h2 hlt
    refine Or.inl ?_
    show pyStrLt (event_sort_key e1).1 (event_sort_key e2).1
    unfold event_sort_key
    dsimp only
    rw [h1, h2]
    simp only [Option.getD_some]
    obtain ⟨_, hy2, _, hm2, _, hd2⟩ := parse_date_bounds h2
    obtain ⟨_, _, _, hm1, _, _⟩ := parse_date_bounds h1
    exact iso_lt hy2 (by omega) (by omega) (by omega) hlt
  · intro e1 e2 y1 m1 d1 h1 h2 hne
    refine Or.inl ?_
    show pyStrLt (event_sort_key e1).1 (event_sort_key e2).1
    unfold event_sort_key
    dsimp only
    rw [h1, h2]
    simp only [Option.getD_some, Option.getD_none]
    obtain ⟨q1, hy1, q3, hm1, q5, hd1⟩ := parse_date_bounds h1
    simp only [datetime_max_date, ne_eq, Prod.mk.injEq, not_and] at hne
    have hlt : y1 < 9999 ∨ (y1 = 9999 ∧ (m1 < 12 ∨ (m1 = 12 ∧ d1 < 31))) := by
      omega
    exact iso_lt (by omega) (by omega) (by omega) (by omega) hlt
  · intro e1 e2 t hk h2 hlen hne h5
    refine Or.inr ⟨hk, Or.inl ?_⟩
    have k1 : (event_sort_key e1).2.1 = String.mk t := by
      unfold event_sort_key first_time_token
      dsimp only
      rw [h2]
    have k2 : (event_sort_key e2).2.1 = String.mk ['9', '9', ':', '9', '9'] := by
      unfold event_sort_key first_time_token
      dsimp only
      rw [h5]
    rw [k1, k2]
    show t < ['9', '9', ':', '9', '9']
    rcases ftt_scan_shape _ _ h2 with ⟨a, b, c, d, rfl, ha, hb, hc, hd⟩ | ⟨a, c, d, rfl, _, _, _⟩
    · exact five_token_lt_sentinel ha hb hc hd hne
    · simp at hlen
  · intro e1 e2 hk1 hk2 hlt
    exact Or.inr ⟨hk1, Or.inr ⟨hk2, hlt⟩⟩

/-- C8 witness: the date-monotonicity conjunct applied to the concrete timed
events on 05.01.2026 and 06.01.2026. -/
theorem c8_witness :
    parse_date (normalize_ws c8_t0900.datum) = some (2026, 1, 5) ∧
    parse_date (normalize_ws c8_later.datum) = some (2026, 1, 6) ∧
    keyLt (event_sort_key c8_t0900) (event_sort_key c8_later) := by
  refine ⟨by decide, by decide, ?_⟩
  exact c8_sort_key_order.1 c8_t0900 c8_later 2026 1 5 2026 1 6 (by decide) (by decide)
    (Or.inr ⟨rfl, Or.inr ⟨rfl, by decide⟩⟩)
